import Mathlib

/-!
# Verification of the schema-muxing provider server

Shallow embedding of the Go sources of this repository:

* `tfmux.SchemaServerFactory` / `tfmux.NewSchemaServerFactory` /
  `tfmux.SchemaServer` and all of its RPC methods (file `src/unnamed/part_000`);
* `tf6muxserver.dynamicValueEquals` (file `src/tf6muxserver/dynamic_value_equality.go`).

Modelling conventions:

* Go `(value, error)` returns become `Option Resp × Option GoErr` (a nil
  pointer is `none`); `GetProviderSchema` results, which the build consumes
  only after checking the error, are modelled as `Except GoErr Resp`.
* Go maps become association lists; insertion only ever happens after a
  lookup found nothing, so first-match lookup on the list coincides with map
  semantics.  The (unspecified) iteration order of a response map is the
  order of the corresponding list.
* the `fmt.Errorf` error values of the source are modelled structurally, one
  constructor per error site, carrying the data interpolated into the
  message.
* the fan-out operations (`ConfigureProvider`, `StopProvider`) dereference a
  backend response pointer without a nil check; a nil response together with
  a nil error would make the Go code panic.  Their models therefore return
  `Option (result × trace)`, with `none` standing for that panic.
* each dispatching operation additionally returns the trace of backends it
  invoked (positions for the fan-out loops and the designated-owner call,
  backend values for the type-keyed lookups); this ghost output records
  exactly the backend calls the Go code performs, in order.
-/

/-- Diagnostic severity, as in `tfprotov5.DiagnosticSeverity`. -/
inductive DiagnosticSeverity : Type
  | invalid
  | error
  | warning
deriving DecidableEq

/-- `tfprotov5.Diagnostic`.  The attribute path may be absent (nil). -/
structure Diagnostic : Type where
  severity : DiagnosticSeverity
  attr : Option String
  summary : String
  detail : String
deriving DecidableEq

/-- An opaque `tfprotov5.Schema` value. -/
structure Schema : Type where
  id : Nat
deriving DecidableEq

/-- `tfprotov5.GetProviderSchemaResponse`: schema maps are association lists
whose values may be nil schema pointers, and the diagnostics slice may hold
nil entries. -/
structure GetProviderSchemaResponse : Type where
  provider : Option Schema
  providerMeta : Option Schema
  resourceSchemas : List (String × Option Schema)
  dataSourceSchemas : List (String × Option Schema)
  diagnostics : List (Option Diagnostic)
deriving DecidableEq

/-- Go `error` values produced by backends and by the mux server's own
`fmt.Errorf` calls, modelled structurally. -/
inductive GoErr : Type
  /-- an opaque error originating inside a backend -/
  | backend (msg : String)
  /-- `"%q isn't supported by any servers"` -/
  | unsupported (typeName : String)
  /-- `"no server is set to provide the provider's schema"` -/
  | noProviderSchemaOwner
  /-- `"error configuring %T: %w"` -/
  | configureError (cause : GoErr)
  /-- `"error stopping %T: %w"` -/
  | stopError (cause : GoErr)
  /-- `"unable to unmarshal DynamicValue: missing Type"` -/
  | unmarshalMissingType
  /-- `"unable to unmarshal DynamicValue: %w"` -/
  | unmarshalFailed (cause : String)
deriving DecidableEq

/-- The build-time errors of `NewSchemaServerFactory`, one constructor per
`fmt.Errorf` site, carrying the interpolated data (backends appear as their
position). -/
inductive MuxError : Type
  /-- `"error retrieving schema for %T: %w"` -/
  | schemaRetrievalFailed (pos : Nat) (cause : GoErr)
  /-- `"error retrieving schema for %T: ... Attribute ... Summary ... Detail ..."` -/
  | backendSchemaError (pos : Nat) (attr : Option String) (summary detail : String)
  /-- `"provider schema supported by multiple server implementations"` -/
  | duplicateProviderSchema (firstOwner : Int) (conflictingOwner : Nat)
  /-- `"provider_meta schema supported by multiple server implementations"` -/
  | duplicateProviderMetaSchema (firstOwner : Int) (conflictingOwner : Nat)
  /-- `"resource %q supported by multiple server implementations"` -/
  | duplicateResourceType (typeName : String) (firstOwner : Nat) (conflictingOwner : Nat)
  /-- `"data source %q supported by multiple server implementations"` -/
  | duplicateDataSourceType (typeName : String) (firstOwner : Nat) (conflictingOwner : Nat)
deriving DecidableEq

/- Requests and responses of the RPC operations.  Fields the mux server never
inspects are collapsed into an opaque `Nat` payload; type-keyed requests keep
their `TypeName` field. -/

structure PrepareProviderConfigRequest : Type where
  payload : Nat
deriving DecidableEq

structure PrepareProviderConfigResponse : Type where
  payload : Nat
deriving DecidableEq

structure ValidateResourceTypeConfigRequest : Type where
  typeName : String
  payload : Nat
deriving DecidableEq

structure ValidateResourceTypeConfigResponse : Type where
  payload : Nat
deriving DecidableEq

structure ValidateDataSourceConfigRequest : Type where
  typeName : String
  payload : Nat
deriving DecidableEq

structure ValidateDataSourceConfigResponse : Type where
  payload : Nat
deriving DecidableEq

structure UpgradeResourceStateRequest : Type where
  typeName : String
  payload : Nat
deriving DecidableEq

structure UpgradeResourceStateResponse : Type where
  payload : Nat
deriving DecidableEq

structure ConfigureProviderRequest : Type where
  payload : Nat
deriving DecidableEq

structure ConfigureProviderResponse : Type where
  diagnostics : List (Option Diagnostic)
  payload : Nat
deriving DecidableEq

structure ReadResourceRequest : Type where
  typeName : String
  payload : Nat
deriving DecidableEq

structure ReadResourceResponse : Type where
  payload : Nat
deriving DecidableEq

structure PlanResourceChangeRequest : Type where
  typeName : String
  payload : Nat
deriving DecidableEq

structure PlanResourceChangeResponse : Type where
  payload : Nat
deriving DecidableEq

structure ApplyResourceChangeRequest : Type where
  typeName : String
  payload : Nat
deriving DecidableEq

structure ApplyResourceChangeResponse : Type where
  payload : Nat
deriving DecidableEq

structure ImportResourceStateRequest : Type where
  typeName : String
  payload : Nat
deriving DecidableEq

structure ImportResourceStateResponse : Type where
  payload : Nat
deriving DecidableEq

structure ReadDataSourceRequest : Type where
  typeName : String
  payload : Nat
deriving DecidableEq

structure ReadDataSourceResponse : Type where
  payload : Nat
deriving DecidableEq

structure StopProviderRequest : Type where
  payload : Nat
deriving DecidableEq

structure StopProviderResponse : Type where
  error : String
  payload : Nat
deriving DecidableEq

/-- A backend `tfprotov5.ProviderServer`: one behaviour per RPC operation.
Each fallible operation returns the Go `(response pointer, error)` pair. -/
structure Backend : Type where
  getProviderSchema : Except GoErr GetProviderSchemaResponse
  prepareProviderConfig :
    PrepareProviderConfigRequest → Option PrepareProviderConfigResponse × Option GoErr
  validateResourceTypeConfig :
    ValidateResourceTypeConfigRequest → Option ValidateResourceTypeConfigResponse × Option GoErr
  validateDataSourceConfig :
    ValidateDataSourceConfigRequest → Option ValidateDataSourceConfigResponse × Option GoErr
  upgradeResourceState :
    UpgradeResourceStateRequest → Option UpgradeResourceStateResponse × Option GoErr
  configureProvider :
    ConfigureProviderRequest → Option ConfigureProviderResponse × Option GoErr
  readResource : ReadResourceRequest → Option ReadResourceResponse × Option GoErr
  planResourceChange : PlanResourceChangeRequest → Option PlanResourceChangeResponse × Option GoErr
  applyResourceChange :
    ApplyResourceChangeRequest → Option ApplyResourceChangeResponse × Option GoErr
  importResourceState :
    ImportResourceStateRequest → Option ImportResourceStateResponse × Option GoErr
  readDataSource : ReadDataSourceRequest → Option ReadDataSourceResponse × Option GoErr
  stopProvider : StopProviderRequest → Option StopProviderResponse × Option GoErr

/-- First-match lookup in an association list (Go map lookup `m[key]`). -/
def assocLookup {α : Type} (key : String) : List (String × α) → Option α
  | [] => none
  | p :: rest => if p.1 = key then some p.2 else assocLookup key rest

/-- The state accumulated by `NewSchemaServerFactory`
(struct `tfmux.SchemaServerFactory`). -/
structure SchemaServerFactory : Type where
  resources : List (String × Nat)
  dataSources : List (String × Nat)
  servers : List Backend
  resourceSchemas : List (String × Option Schema)
  dataSourceSchemas : List (String × Option Schema)
  providerSchema : Option Schema
  providerMetaSchema : Option Schema
  diagnostics : List (Option Diagnostic)
  providerSchemaFrom : Int
  providerMetaSchemaFrom : Int

/-- The diagnostics walk of `NewSchemaServerFactory`: skip nil entries,
append non-error diagnostics to the accumulator, abort on the first
error-severity diagnostic. -/
def walkDiagnostics (pos : Nat) (acc : List (Option Diagnostic)) :
    List (Option Diagnostic) → Except MuxError (List (Option Diagnostic))
  | [] => .ok acc
  | none :: rest => walkDiagnostics pos acc rest
  | some diag :: rest =>
    if diag.severity ≠ .error then walkDiagnostics pos (acc ++ [some diag]) rest
    else .error (.backendSchemaError pos diag.attr diag.summary diag.detail)

/-- The provider-schema step of `NewSchemaServerFactory`: abort if the
response declares a provider schema while one is already recorded, otherwise
record this backend as the owner when it declares one. -/
def recordProvider (pos : Nat) (factory : SchemaServerFactory)
    (resp : GetProviderSchemaResponse) : Except MuxError SchemaServerFactory :=
  if resp.provider.isSome && factory.providerSchema.isSome then
    .error (.duplicateProviderSchema factory.providerSchemaFrom pos)
  else if resp.provider.isSome then
    .ok { factory with providerSchemaFrom := (pos : Int), providerSchema := resp.provider }
  else .ok factory

/-- The provider-meta step of `NewSchemaServerFactory`, identical to
`recordProvider` but on the provider-meta fields. -/
def recordProviderMeta (pos : Nat) (factory : SchemaServerFactory)
    (resp : GetProviderSchemaResponse) : Except MuxError SchemaServerFactory :=
  if resp.providerMeta.isSome && factory.providerMetaSchema.isSome then
    .error (.duplicateProviderMetaSchema factory.providerMetaSchemaFrom pos)
  else if resp.providerMeta.isSome then
    .ok { factory with providerMetaSchemaFrom := (pos : Int),
                       providerMetaSchema := resp.providerMeta }
  else .ok factory

/-- The type-registration loop of `NewSchemaServerFactory`, shared between
resources and data sources (the Go source repeats the identical loop twice):
walk the response's schema map, aborting when a type name already has an
owner in the registry, otherwise registering this backend and storing the
schema. -/
def registerTypes (mkErr : String → Nat → Nat → MuxError) (pos : Nat)
    (registry : List (String × Nat)) (schemas : List (String × Option Schema)) :
    List (String × Option Schema) →
      Except MuxError (List (String × Nat) × List (String × Option Schema))
  | [] => .ok (registry, schemas)
  | (name, schema) :: rest =>
    match assocLookup name registry with
    | some v => .error (mkErr name v pos)
    | none =>
      registerTypes mkErr pos (registry ++ [(name, pos)]) (schemas ++ [(name, schema)]) rest

/-- The body of `NewSchemaServerFactory`'s loop for one backend at position
`pos`: retrieve the schema, walk the diagnostics, record provider and
provider-meta ownership, then register resource and data-source types. -/
def processBackend (pos : Nat) (factory : SchemaServerFactory) (b : Backend) :
    Except MuxError SchemaServerFactory :=
  match b.getProviderSchema with
  | .error e => .error (.schemaRetrievalFailed pos e)
  | .ok resp =>
    match walkDiagnostics pos factory.diagnostics resp.diagnostics with
    | .error e => .error e
    | .ok diags =>
      match recordProvider pos { factory with diagnostics := diags } resp with
      | .error e => .error e
      | .ok f2 =>
        match recordProviderMeta pos f2 resp with
        | .error e => .error e
        | .ok f3 =>
          match registerTypes .duplicateResourceType pos f3.resources f3.resourceSchemas
              resp.resourceSchemas with
          | .error e => .error e
          | .ok (res, resSch) =>
            match registerTypes .duplicateDataSourceType pos f3.dataSources f3.dataSourceSchemas
                resp.dataSourceSchemas with
            | .error e => .error e
            | .ok (ds, dsSch) =>
              .ok { f3 with resources := res, resourceSchemas := resSch,
                            dataSources := ds, dataSourceSchemas := dsSch }

/-- The backend loop of `NewSchemaServerFactory`, processing the backends of
`l` which sit at positions `pos, pos+1, ...` of the declaration list. -/
def buildFrom (pos : Nat) (factory : SchemaServerFactory) :
    List Backend → Except MuxError SchemaServerFactory
  | [] => .ok factory
  | b :: rest =>
    match processBackend pos factory b with
    | .error e => .error e
    | .ok f => buildFrom (pos + 1) f rest

/-- The zero-initialised factory of `NewSchemaServerFactory` (with the two
owner positions set to `-1` and the server list filled in). -/
def initFactory (servers : List Backend) : SchemaServerFactory :=
  { resources := [], dataSources := [], servers := servers,
    resourceSchemas := [], dataSourceSchemas := [],
    providerSchema := none, providerMetaSchema := none,
    diagnostics := [], providerSchemaFrom := -1, providerMetaSchemaFrom := -1 }

/-- `tfmux.NewSchemaServerFactory`. -/
def NewSchemaServerFactory (servers : List Backend) : Except MuxError SchemaServerFactory :=
  buildFrom 0 (initFactory servers) servers

/-- `SchemaServerFactory.getSchemaHandler`: the composite literal sets only
the four schema fields, so the `Diagnostics` field of the response is its
zero value (nil). -/
def SchemaServerFactory.getSchemaHandler (s : SchemaServerFactory) :
    Option GetProviderSchemaResponse × Option GoErr :=
  (some { provider := s.providerSchema,
          resourceSchemas := s.resourceSchemas,
          dataSourceSchemas := s.dataSourceSchemas,
          providerMeta := s.providerMetaSchema,
          diagnostics := [] },
   none)

/-- `tfmux.SchemaServer`: the runtime router produced by
`SchemaServerFactory.Server`. -/
structure SchemaServer : Type where
  resources : List (String × Backend)
  dataSources : List (String × Backend)
  servers : List Backend
  getSchemaHandler : Option GetProviderSchemaResponse × Option GoErr
  prepareProviderConfigServer : Int

/-- A schema response declaring nothing. -/
def emptySchemaResponse : GetProviderSchemaResponse :=
  { provider := none, providerMeta := none,
    resourceSchemas := [], dataSourceSchemas := [], diagnostics := [] }

/-- A placeholder backend, used only as the (unreachable) default of the
list indexing performed by `SchemaServerFactory.Server`. -/
def defaultBackend : Backend :=
  { getProviderSchema := .ok emptySchemaResponse,
    prepareProviderConfig := fun _ => (none, none),
    validateResourceTypeConfig := fun _ => (none, none),
    validateDataSourceConfig := fun _ => (none, none),
    upgradeResourceState := fun _ => (none, none),
    configureProvider := fun _ => (some { diagnostics := [], payload := 0 }, none),
    readResource := fun _ => (none, none),
    planResourceChange := fun _ => (none, none),
    applyResourceChange := fun _ => (none, none),
    importResourceState := fun _ => (none, none),
    readDataSource := fun _ => (none, none),
    stopProvider := fun _ => (some { error := "", payload := 0 }, none) }

instance : Inhabited Backend := ⟨defaultBackend⟩

/-- `SchemaServerFactory.Server`: resolve the registered positions to backend
instances and hand over the schema handler and the designated
provider-config owner.  (The Go code reconstructs each backend from its
factory function; backends are pure values here, so reconstruction yields
the same value.)  The indexing `res.servers[pos]` is in range for every
factory the build produces; out of range it would panic in Go, modelled by
an arbitrary default. -/
def SchemaServerFactory.Server (s : SchemaServerFactory) : SchemaServer :=
  { servers := s.servers,
    getSchemaHandler := s.getSchemaHandler,
    prepareProviderConfigServer := s.providerSchemaFrom,
    resources := s.resources.map (fun p => (p.1, s.servers.getD p.2 defaultBackend)),
    dataSources := s.dataSources.map (fun p => (p.1, s.servers.getD p.2 defaultBackend)) }

/-- `SchemaServer.GetProviderSchema`: returns the precomputed merged schema
response. -/
def SchemaServer.GetProviderSchema (s : SchemaServer) :
    Option GetProviderSchemaResponse × Option GoErr :=
  s.getSchemaHandler

/-- `SchemaServer.PrepareProviderConfig`: fail unless a backend in range is
designated as the provider-schema owner, otherwise forward the request to it
unchanged. -/
def SchemaServer.PrepareProviderConfig (s : SchemaServer)
    (req : PrepareProviderConfigRequest) :
    (Option PrepareProviderConfigResponse × Option GoErr) × List Nat :=
  if h : s.prepareProviderConfigServer < 0 ∨
      (s.servers.length : Int) ≤ s.prepareProviderConfigServer then
    ((none, some .noProviderSchemaOwner), [])
  else
    have hlt : s.prepareProviderConfigServer.toNat < s.servers.length := by
      rcases not_or.mp h with ⟨h1, h2⟩
      omega
    ((s.servers.get ⟨s.prepareProviderConfigServer.toNat, hlt⟩).prepareProviderConfig req,
     [s.prepareProviderConfigServer.toNat])

/-- `SchemaServer.ValidateResourceTypeConfig`: type-keyed dispatch through
the resource table. -/
def SchemaServer.ValidateResourceTypeConfig (s : SchemaServer)
    (req : ValidateResourceTypeConfigRequest) :
    (Option ValidateResourceTypeConfigResponse × Option GoErr) × List Backend :=
  match assocLookup req.typeName s.resources with
  | none => ((none, some (.unsupported req.typeName)), [])
  | some h => (h.validateResourceTypeConfig req, [h])

/-- `SchemaServer.ValidateDataSourceConfig`: type-keyed dispatch through the
data-source table. -/
def SchemaServer.ValidateDataSourceConfig (s : SchemaServer)
    (req : ValidateDataSourceConfigRequest) :
    (Option ValidateDataSourceConfigResponse × Option GoErr) × List Backend :=
  match assocLookup req.typeName s.dataSources with
  | none => ((none, some (.unsupported req.typeName)), [])
  | some h => (h.validateDataSourceConfig req, [h])

/-- `SchemaServer.UpgradeResourceState`: type-keyed dispatch through the
resource table. -/
def SchemaServer.UpgradeResourceState (s : SchemaServer)
    (req : UpgradeResourceStateRequest) :
    (Option UpgradeResourceStateResponse × Option GoErr) × List Backend :=
  match assocLookup req.typeName s.resources with
  | none => ((none, some (.unsupported req.typeName)), [])
  | some h => (h.upgradeResourceState req, [h])

/-- `SchemaServer.ReadResource`: type-keyed dispatch through the resource
table. -/
def SchemaServer.ReadResource (s : SchemaServer) (req : ReadResourceRequest) :
    (Option ReadResourceResponse × Option GoErr) × List Backend :=
  match assocLookup req.typeName s.resources with
  | none => ((none, some (.unsupported req.typeName)), [])
  | some h => (h.readResource req, [h])

/-- `SchemaServer.PlanResourceChange`: type-keyed dispatch through the
resource table. -/
def SchemaServer.PlanResourceChange (s : SchemaServer) (req : PlanResourceChangeRequest) :
    (Option PlanResourceChangeResponse × Option GoErr) × List Backend :=
  match assocLookup req.typeName s.resources with
  | none => ((none, some (.unsupported req.typeName)), [])
  | some h => (h.planResourceChange req, [h])

/-- `SchemaServer.ApplyResourceChange`: type-keyed dispatch through the
resource table. -/
def SchemaServer.ApplyResourceChange (s : SchemaServer) (req : ApplyResourceChangeRequest) :
    (Option ApplyResourceChangeResponse × Option GoErr) × List Backend :=
  match assocLookup req.typeName s.resources with
  | none => ((none, some (.unsupported req.typeName)), [])
  | some h => (h.applyResourceChange req, [h])

/-- `SchemaServer.ImportResourceState`: type-keyed dispatch through the
resource table. -/
def SchemaServer.ImportResourceState (s : SchemaServer) (req : ImportResourceStateRequest) :
    (Option ImportResourceStateResponse × Option GoErr) × List Backend :=
  match assocLookup req.typeName s.resources with
  | none => ((none, some (.unsupported req.typeName)), [])
  | some h => (h.importResourceState req, [h])

/-- `SchemaServer.ReadDataSource`: type-keyed dispatch through the
data-source table. -/
def SchemaServer.ReadDataSource (s : SchemaServer) (req : ReadDataSourceRequest) :
    (Option ReadDataSourceResponse × Option GoErr) × List Backend :=
  match assocLookup req.typeName s.dataSources with
  | none => ((none, some (.unsupported req.typeName)), [])
  | some h => (h.readDataSource req, [h])

/-- The diagnostics walk inside `SchemaServer.ConfigureProvider`: skip nil
entries, append each non-nil diagnostic to the accumulator, and report
(`true`) as soon as an appended diagnostic has error severity (the Go loop
then overwrites `resp.Diagnostics` and returns). -/
def appendDiags (acc : List (Option Diagnostic)) :
    List (Option Diagnostic) → List (Option Diagnostic) × Bool
  | [] => (acc, false)
  | none :: rest => appendDiags acc rest
  | some diag :: rest =>
    if diag.severity ≠ .error then appendDiags (acc ++ [some diag]) rest
    else (acc ++ [some diag], true)

/-- The backend loop of `SchemaServer.ConfigureProvider`, over the backends
of `l` sitting at positions `pos, pos+1, ...`.  `none` models the Go panic
on a nil response with a nil error. -/
def configureLoop (req : ConfigureProviderRequest) (pos : Nat)
    (diags : List (Option Diagnostic)) :
    List Backend → Option ((Option ConfigureProviderResponse × Option GoErr) × List Nat)
  | [] => some ((some { diagnostics := diags, payload := 0 }, none), [])
  | server :: rest =>
    match server.configureProvider req with
    | (respOpt, some e) => some ((respOpt, some (.configureError e)), [pos])
    | (some resp, none) =>
      match appendDiags diags resp.diagnostics with
      | (newDiags, true) => some ((some { resp with diagnostics := newDiags }, none), [pos])
      | (newDiags, false) =>
        (configureLoop req (pos + 1) newDiags rest).map (fun pr => (pr.1, pos :: pr.2))
    | (none, none) => none

/-- `SchemaServer.ConfigureProvider`: sequential fan-out over all backends
with the identical request, accumulating non-nil diagnostics, stopping at a
transport error or at the first error-severity diagnostic. -/
def SchemaServer.ConfigureProvider (s : SchemaServer) (req : ConfigureProviderRequest) :
    Option ((Option ConfigureProviderResponse × Option GoErr) × List Nat) :=
  configureLoop req 0 [] s.servers

/-- The backend loop of `SchemaServer.StopProvider`, over the backends of
`l` sitting at positions `pos, pos+1, ...`.  `none` models the Go panic on a
nil response with a nil error. -/
def stopLoop (req : StopProviderRequest) (pos : Nat) :
    List Backend → Option ((Option StopProviderResponse × Option GoErr) × List Nat)
  | [] => some ((some { error := "", payload := 0 }, none), [])
  | server :: rest =>
    match server.stopProvider req with
    | (respOpt, some e) => some ((respOpt, some (.stopError e)), [pos])
    | (some resp, none) =>
      if resp.error ≠ "" then some ((some resp, none), [pos])
      else (stopLoop req (pos + 1) rest).map (fun pr => (pr.1, pos :: pr.2))
    | (none, none) => none

/-- `SchemaServer.StopProvider`: sequential fan-out over all backends,
stopping at a transport error, and — as the code is written — also returning
immediately on the first non-empty `Error` string. -/
def SchemaServer.StopProvider (s : SchemaServer) (req : StopProviderRequest) :
    Option ((Option StopProviderResponse × Option GoErr) × List Nat) :=
  stopLoop req 0 s.servers

/-- An opaque `tftypes.Type` (the interface value may be nil, hence the uses
below wrap it in `Option`). -/
abbrev TfType : Type := Nat

/-- An opaque `tftypes.Value`; `Value.Equal` is modelled by `==`. -/
abbrev TfValue : Type := Nat

/-- `tfprotov6.DynamicValue`, exposing only its `Unmarshal` behaviour. -/
structure DynamicValue : Type where
  unmarshal : TfType → Except String TfValue

/-- `tf6muxserver.dynamicValueEquals`
(file `src/tf6muxserver/dynamic_value_equality.go`). -/
def dynamicValueEquals (schemaType : Option TfType) (i j : Option DynamicValue) :
    Bool × Option GoErr :=
  match i with
  | none => (j.isNone, none)
  | some iDV =>
    match j with
    | none => (false, none)
    | some jDV =>
      match schemaType with
      | none => (false, some .unmarshalMissingType)
      | some t =>
        match iDV.unmarshal t with
        | .error e => (false, some (.unmarshalFailed e))
        | .ok iValue =>
          match jDV.unmarshal t with
          | .error e => (false, some (.unmarshalFailed e))
          | .ok jValue => (iValue == jValue, none)

/-! ## Specification vocabulary -/

/-- The non-nil entries of a diagnostics slice. -/
def nonNilDiags (ds : List (Option Diagnostic)) : List Diagnostic :=
  ds.filterMap id

/-- Whether a diagnostic has error severity. -/
def Diagnostic.isErr (d : Diagnostic) : Bool :=
  decide (d.severity = .error)

/-- The diagnostics of a list up to and including the first one of error
severity. -/
def takeToErr : List Diagnostic → List Diagnostic
  | [] => []
  | d :: rest => if d.isErr then [d] else d :: takeToErr rest

/-- The non-nil diagnostics a backend reports from a (transport-successful)
configure call. -/
def confRespDiags (req : ConfigureProviderRequest) (b : Backend) : List Diagnostic :=
  match b.configureProvider req with
  | (some resp, none) => nonNilDiags resp.diagnostics
  | _ => []

/-- The schema a backend at position `pos` declares for resource type
`name`, if any. -/
def resSchemaOf (servers : List Backend) (pos : Nat) (name : String) : Option (Option Schema) :=
  match servers.get? pos with
  | some b =>
    match b.getProviderSchema with
    | .ok resp => assocLookup name resp.resourceSchemas
    | .error _ => none
  | none => none

/-- The schema a backend at position `pos` declares for data-source type
`name`, if any. -/
def dsSchemaOf (servers : List Backend) (pos : Nat) (name : String) : Option (Option Schema) :=
  match servers.get? pos with
  | some b =>
    match b.getProviderSchema with
    | .ok resp => assocLookup name resp.dataSourceSchemas
    | .error _ => none
  | none => none

/-- The provider schema the backend at position `pos` declares (`none` when
it declares none, fails, or the position is out of range). -/
def provOf (servers : List Backend) (pos : Nat) : Option Schema :=
  match servers.get? pos with
  | some b =>
    match b.getProviderSchema with
    | .ok resp => resp.provider
    | .error _ => none
  | none => none

/-- The provider-meta schema the backend at position `pos` declares. -/
def metaOf (servers : List Backend) (pos : Nat) : Option Schema :=
  match servers.get? pos with
  | some b =>
    match b.getProviderSchema with
    | .ok resp => resp.providerMeta
    | .error _ => none
  | none => none

/-- The backend at position `pos` declares resource type `name`. -/
def declaresRes (servers : List Backend) (pos : Nat) (name : String) : Prop :=
  (resSchemaOf servers pos name).isSome = true

/-- The backend at position `pos` declares data-source type `name`. -/
def declaresDS (servers : List Backend) (pos : Nat) (name : String) : Prop :=
  (dsSchemaOf servers pos name).isSome = true

/-- The backend at position `pos` declares a non-empty provider schema. -/
def declaresProv (servers : List Backend) (pos : Nat) : Prop :=
  (provOf servers pos).isSome = true

/-- The backend at position `pos` declares a non-empty provider-meta
schema. -/
def declaresMeta (servers : List Backend) (pos : Nat) : Prop :=
  (metaOf servers pos).isSome = true

/-- The resource type names the backend at position `pos` declares, in
response order. -/
def resKeys (servers : List Backend) (pos : Nat) : List String :=
  match servers.get? pos with
  | some b =>
    match b.getProviderSchema with
    | .ok resp => resp.resourceSchemas.map Prod.fst
    | .error _ => []
  | none => []

/-- The data-source type names the backend at position `pos` declares, in
response order. -/
def dsKeys (servers : List Backend) (pos : Nat) : List String :=
  match servers.get? pos with
  | some b =>
    match b.getProviderSchema with
    | .ok resp => resp.dataSourceSchemas.map Prod.fst
    | .error _ => []
  | none => []

/-! ## Concrete backends used to evaluate the model -/

/-- A warning diagnostic. -/
def warnDiag : Diagnostic :=
  { severity := .warning, attr := none, summary := "warn", detail := "warn detail" }

/-- A backend whose schema response carries a nil entry followed by a
warning diagnostic. -/
def warnDiagBackend : Backend :=
  { defaultBackend with
    getProviderSchema := .ok { emptySchemaResponse with diagnostics := [none, some warnDiag] } }

/-- A backend whose `StopProvider` reports the non-empty error string
`"errA"`. -/
def stopErrBackend : Backend :=
  { defaultBackend with stopProvider := fun _ => (some { error := "errA", payload := 7 }, none) }

/-- A two-backend router: the first backend reports a stop error, the second
stops cleanly. -/
def stopTestServer : SchemaServer :=
  { resources := [], dataSources := [], servers := [stopErrBackend, defaultBackend],
    getSchemaHandler := (none, none), prepareProviderConfigServer := -1 }

/-! ## C9: totality of `dynamicValueEquals` on nil inputs -/

/-- C9: `dynamicValueEquals` is total on nil inputs: nil versus nil is
`true` with no error; nil versus non-nil (either order) is `false` with no
error; and with both values non-nil but a nil schema type it returns an
error without ever invoking `Unmarshal` (the conclusion holds for every
`unmarshal` behaviour, including ones that would panic). -/
theorem c9_dynamicValueEquals_total_on_nil :
    (∀ t : Option TfType, dynamicValueEquals t none none = (true, none)) ∧
    (∀ (t : Option TfType) (v : DynamicValue),
        dynamicValueEquals t (some v) none = (false, none)) ∧
    (∀ (t : Option TfType) (v : DynamicValue),
        dynamicValueEquals t none (some v) = (false, none)) ∧
    (∀ i j : DynamicValue,
        dynamicValueEquals none (some i) (some j) = (false, some .unmarshalMissingType)) :=
  ⟨fun _ => rfl, fun _ _ => rfl, fun _ _ => rfl, fun _ _ => rfl⟩

/-! ## C1: `StopProvider` stops at the first non-empty error string -/

/-- C1 (code bug): with backends `[stopErrBackend, defaultBackend]`, where
the first reports the non-empty error string `"errA"` and the second would
stop cleanly, `StopProvider` invokes only the first backend (trace `[0]`)
and returns its response with the unjoined error string `"errA"` — the
remaining backend is never invoked, contradicting the claim (and the
method's own documentation) that all backends are invoked and the error
strings joined. -/
theorem c1_stop_short_circuit_eval :
    stopTestServer.StopProvider { payload := 0 } =
      some ((some { error := "errA", payload := 7 }, none), [0]) := rfl

/-! ## C2: the merged schema response drops the accumulated diagnostics -/

/-- C2 (code bug): building from the single backend `warnDiagBackend`, whose
schema response reports one (non-error) warning diagnostic, succeeds and
stores the warning in the factory accumulator, yet the schema-retrieval
response produced by `getSchemaHandler` — and hence by `GetProviderSchema`
on the merged server — carries an empty diagnostics list instead of the
accumulated warning. -/
theorem c2_merged_schema_drops_diagnostics :
    (NewSchemaServerFactory [warnDiagBackend]).map
        (fun f => (f.diagnostics, (f.Server).GetProviderSchema)) =
      .ok ([some warnDiag], (some emptySchemaResponse, none)) := rfl

/-! ## C4: type-keyed dispatch -/

/-- C4: for every type-keyed operation (resource validate / upgrade-state /
read / plan / apply / import; data-source validate / read) and every
request: when the request's type name is absent from the corresponding
routing table the operation fails with the unregistered-type error and
invokes no backend; when the name is registered to backend `b` the
operation invokes exactly `b` and returns `b`'s response and error
unmodified. -/
theorem c4_type_keyed_dispatch (s : SchemaServer) (name : String) (payload : Nat) :
    (assocLookup name s.resources = none →
      s.ValidateResourceTypeConfig ⟨name, payload⟩ = ((none, some (.unsupported name)), []) ∧
      s.UpgradeResourceState ⟨name, payload⟩ = ((none, some (.unsupported name)), []) ∧
      s.ReadResource ⟨name, payload⟩ = ((none, some (.unsupported name)), []) ∧
      s.PlanResourceChange ⟨name, payload⟩ = ((none, some (.unsupported name)), []) ∧
      s.ApplyResourceChange ⟨name, payload⟩ = ((none, some (.unsupported name)), []) ∧
      s.ImportResourceState ⟨name, payload⟩ = ((none, some (.unsupported name)), [])) ∧
    (∀ b, assocLookup name s.resources = some b →
      s.ValidateResourceTypeConfig ⟨name, payload⟩ =
        (b.validateResourceTypeConfig ⟨name, payload⟩, [b]) ∧
      s.UpgradeResourceState ⟨name, payload⟩ = (b.upgradeResourceState ⟨name, payload⟩, [b]) ∧
      s.ReadResource ⟨name, payload⟩ = (b.readResource ⟨name, payload⟩, [b]) ∧
      s.PlanResourceChange ⟨name, payload⟩ = (b.planResourceChange ⟨name, payload⟩, [b]) ∧
      s.ApplyResourceChange ⟨name, payload⟩ = (b.applyResourceChange ⟨name, payload⟩, [b]) ∧
      s.ImportResourceState ⟨name, payload⟩ = (b.importResourceState ⟨name, payload⟩, [b])) ∧
    (assocLookup name s.dataSources = none →
      s.ValidateDataSourceConfig ⟨name, payload⟩ = ((none, some (.unsupported name)), []) ∧
      s.ReadDataSource ⟨name, payload⟩ = ((none, some (.unsupported name)), [])) ∧
    (∀ b, assocLookup name s.dataSources = some b →
      s.ValidateDataSourceConfig ⟨name, payload⟩ =
        (b.validateDataSourceConfig ⟨name, payload⟩, [b]) ∧
      s.ReadDataSource ⟨name, payload⟩ = (b.readDataSource ⟨name, payload⟩, [b])) := by
  refine ⟨fun h => ?_, fun b h => ?_, fun h => ?_, fun b h => ?_⟩
  · exact ⟨by simp [SchemaServer.ValidateResourceTypeConfig, h],
      by simp [SchemaServer.UpgradeResourceState, h],
      by simp [SchemaServer.ReadResource, h],
      by simp [SchemaServer.PlanResourceChange, h],
      by simp [SchemaServer.ApplyResourceChange, h],
      by simp [SchemaServer.ImportResourceState, h]⟩
  · exact ⟨by simp [SchemaServer.ValidateResourceTypeConfig, h],
      by simp [SchemaServer.UpgradeResourceState, h],
      by simp [SchemaServer.ReadResource, h],
      by simp [SchemaServer.PlanResourceChange, h],
      by simp [SchemaServer.ApplyResourceChange, h],
      by simp [SchemaServer.ImportResourceState, h]⟩
  · exact ⟨by simp [SchemaServer.ValidateDataSourceConfig, h],
      by simp [SchemaServer.ReadDataSource, h]⟩
  · exact ⟨by simp [SchemaServer.ValidateDataSourceConfig, h],
      by simp [SchemaServer.ReadDataSource, h]⟩

/-- A resource-owning backend used to exercise registered dispatch. -/
def resOwnerBackend : Backend :=
  { defaultBackend with readResource := fun _ => (some { payload := 9 }, none) }

/-- A router with resource `"r"` owned by `resOwnerBackend` and no data
sources. -/
def c4TestServer : SchemaServer :=
  { resources := [("r", resOwnerBackend)], dataSources := [],
    servers := [resOwnerBackend],
    getSchemaHandler := (none, none), prepareProviderConfigServer := -1 }

/-- Witness for C4: on `c4TestServer`, reading registered resource `"r"`
invokes exactly its owner and forwards the response, while reading the
unregistered data source `"zz"` fails without touching a backend. -/
theorem c4_type_keyed_dispatch_witness :
    c4TestServer.ReadResource ⟨"r", 0⟩ = ((some { payload := 9 }, none), [resOwnerBackend]) ∧
    c4TestServer.ReadDataSource ⟨"zz", 0⟩ = ((none, some (.unsupported "zz")), []) := by
  constructor
  · exact ((c4_type_keyed_dispatch c4TestServer "r" 0).2.1 resOwnerBackend rfl).2.2.1
  · exact ((c4_type_keyed_dispatch c4TestServer "zz" 0).2.2.1 rfl).2

/-! ## Lemmas about the configure fan-out -/

theorem nonNilDiags_nil : nonNilDiags [] = [] := rfl

theorem nonNilDiags_none_cons (ds : List (Option Diagnostic)) :
    nonNilDiags (none :: ds) = nonNilDiags ds := rfl

theorem nonNilDiags_some_cons (d : Diagnostic) (ds : List (Option Diagnostic)) :
    nonNilDiags (some d :: ds) = d :: nonNilDiags ds := rfl

/-- When a diagnostics slice holds no error-severity diagnostic, the
configure walk appends all of its non-nil entries and reports no error
hit. -/
theorem appendDiags_no_err (ds : List (Option Diagnostic)) :
    ∀ acc : List (Option Diagnostic),
      (∀ d ∈ nonNilDiags ds, d.severity ≠ .error) →
      appendDiags acc ds = (acc ++ (nonNilDiags ds).map some, false) := by
  induction ds with
  | nil => intro acc _; simp [appendDiags, nonNilDiags_nil]
  | cons o rest ih =>
    intro acc h
    cases o with
    | none =>
      rw [nonNilDiags_none_cons] at h
      simpa [appendDiags, nonNilDiags_none_cons] using ih acc h
    | some d =>
      rw [nonNilDiags_some_cons] at h
      have hd : d.severity ≠ .error := h d (List.mem_cons_self d _)
      have hrest : ∀ x ∈ nonNilDiags rest, x.severity ≠ .error :=
        fun x hx => h x (List.mem_cons_of_mem d hx)
      simp only [appendDiags, if_pos hd, nonNilDiags_some_cons]
      rw [ih (acc ++ [some d]) hrest]
      simp

/-- When a diagnostics slice holds an error-severity diagnostic, the
configure walk appends the non-nil entries up to and including the first
error one and reports the hit. -/
theorem appendDiags_with_err (ds : List (Option Diagnostic)) :
    ∀ acc : List (Option Diagnostic),
      (∃ d ∈ nonNilDiags ds, d.severity = .error) →
      appendDiags acc ds = (acc ++ (takeToErr (nonNilDiags ds)).map some, true) := by
  induction ds with
  | nil => intro acc h; simp [nonNilDiags_nil] at h
  | cons o rest ih =>
    intro acc h
    cases o with
    | none =>
      rw [nonNilDiags_none_cons] at h
      simpa [appendDiags, nonNilDiags_none_cons] using ih acc h
    | some d =>
      rw [nonNilDiags_some_cons] at h
      by_cases hd : d.severity = .error
      · simp [appendDiags, hd, nonNilDiags_some_cons, takeToErr, Diagnostic.isErr]
      · have hrest : ∃ x ∈ nonNilDiags rest, x.severity = .error := by
          rcases h with ⟨x, hx, hxe⟩
          rcases List.mem_cons.mp hx with rfl | hx'
          · exact absurd hxe hd
          · exact ⟨x, hx', hxe⟩
        simp only [appendDiags, if_pos hd, nonNilDiags_some_cons, takeToErr,
          Diagnostic.isErr]
        rw [ih (acc ++ [some d]) hrest]
        simp [hd, nonNilDiags]

/-- A backend is clean for a configure request when it returns a response
with no transport error and no error-severity diagnostic. -/
def cleanConfigure (req : ConfigureProviderRequest) (b : Backend) : Prop :=
  ∃ resp, b.configureProvider req = (some resp, none) ∧
    ∀ d ∈ nonNilDiags resp.diagnostics, d.severity ≠ .error

/-- Running the configure loop over a clean front segment invokes each of
its backends in order, accumulates their non-nil diagnostics, and continues
with the rest of the backends. -/
theorem configureLoop_clean_front (req : ConfigureProviderRequest) :
    ∀ (pre rest : List Backend) (pos : Nat) (acc : List (Option Diagnostic)),
      (∀ b ∈ pre, cleanConfigure req b) →
      configureLoop req pos acc (pre ++ rest) =
        (configureLoop req (pos + pre.length)
            (acc ++ ((pre.map (confRespDiags req)).flatten).map some) rest).map
          (fun pr => (pr.1, List.range' pos pre.length ++ pr.2)) := by
  intro pre
  induction pre with
  | nil =>
    intro rest pos acc _
    simp only [List.nil_append, List.length_nil, Nat.add_zero, List.map_nil,
      List.flatten_nil, List.append_nil, List.range'_zero]
    cases configureLoop req pos acc rest <;> simp
  | cons b pre' ih =>
    intro rest pos acc h
    obtain ⟨resp, hb, hnoerr⟩ := h b (List.mem_cons_self b pre')
    have hclean' : ∀ x ∈ pre', cleanConfigure req x :=
      fun x hx => h x (List.mem_cons_of_mem b hx)
    have hcd : confRespDiags req b = nonNilDiags resp.diagnostics := by
      simp [confRespDiags, hb]
    simp only [List.cons_append, configureLoop, hb,
      appendDiags_no_err resp.diagnostics acc hnoerr, List.append_eq]
    rw [ih rest (pos + 1) (acc ++ (nonNilDiags resp.diagnostics).map some) hclean']
    rw [Option.map_map]
    have harith : pos + 1 + pre'.length = pos + (pre'.length + 1) := by omega
    simp only [List.map_cons, List.flatten_cons, hcd, List.map_append,
      List.length_cons, List.append_assoc, harith]
    refine congrFun (congrArg Option.map (funext fun pr => ?_)) _
    simp [List.range'_succ]


/-! ## C3: configure fan-out with short-circuit -/

/-- C3: `ConfigureProvider` invokes the backends sequentially in declaration
order with the identical request.  When every backend is clean (no transport
error, no error-severity diagnostic) each is invoked exactly once (trace
`range length`) and the returned diagnostics are the concatenation of the
backends' non-nil diagnostics in order.  When the backends split as
`pre ++ bad :: post` with `pre` clean and `bad` returning an error-severity
diagnostic, only `pre` and `bad` are invoked (trace `range (pre.length+1)`,
so `post` is never invoked) and the returned response is `bad`'s response
with its diagnostics replaced by everything accumulated so far: the clean
backends' diagnostics followed by `bad`'s up to and including the first
error one. -/
theorem c3_configure_fanout (s : SchemaServer) (req : ConfigureProviderRequest) :
    ((∀ b ∈ s.servers, cleanConfigure req b) →
      s.ConfigureProvider req =
        some ((some { diagnostics := ((s.servers.map (confRespDiags req)).flatten).map some,
                      payload := 0 }, none),
              List.range s.servers.length)) ∧
    (∀ pre bad post badResp,
      s.servers = pre ++ bad :: post →
      (∀ b ∈ pre, cleanConfigure req b) →
      bad.configureProvider req = (some badResp, none) →
      (∃ d ∈ nonNilDiags badResp.diagnostics, d.severity = .error) →
      s.ConfigureProvider req =
        some ((some { badResp with diagnostics :=
                        (((pre.map (confRespDiags req)).flatten ++
                          takeToErr (nonNilDiags badResp.diagnostics)).map some) }, none),
              List.range (pre.length + 1))) := by
  constructor
  · intro h
    have := configureLoop_clean_front req s.servers [] 0 [] h
    rw [List.append_nil] at this
    unfold SchemaServer.ConfigureProvider
    rw [this]
    simp [configureLoop, List.range_eq_range']
  · intro pre bad post badResp hsplit hpre hbad herr
    unfold SchemaServer.ConfigureProvider
    rw [hsplit, configureLoop_clean_front req pre (bad :: post) 0 [] hpre]
    simp only [configureLoop, hbad,
      appendDiags_with_err badResp.diagnostics _ herr]
    simp only [Option.map_some', List.nil_append, List.range_eq_range']
    have h := @List.range'_concat 1 0 pre.length
    simp only [Nat.zero_add, Nat.one_mul] at h
    simp only [Nat.zero_add, List.map_append, h]

/-- A backend whose configure reports a nil entry and a warning. -/
def confWarnBackend : Backend :=
  { defaultBackend with
    configureProvider := fun _ => (some { diagnostics := [none, some warnDiag], payload := 1 }, none) }

/-- An error diagnostic. -/
def errDiag : Diagnostic :=
  { severity := .error, attr := some "attr", summary := "bad", detail := "bad detail" }

/-- A backend whose configure reports a warning, then an error, then another
warning. -/
def confErrBackend : Backend :=
  { defaultBackend with
    configureProvider := fun _ =>
      (some { diagnostics := [some warnDiag, some errDiag, some warnDiag], payload := 3 }, none) }

/-- A three-backend router whose middle backend raises an error-severity
configure diagnostic. -/
def confTestServer : SchemaServer :=
  { resources := [], dataSources := [], servers := [confWarnBackend, confErrBackend, confWarnBackend],
    getSchemaHandler := (none, none), prepareProviderConfigServer := -1 }

/-- A two-backend router whose backends configure cleanly. -/
def confCleanServer : SchemaServer :=
  { confTestServer with servers := [confWarnBackend, confWarnBackend] }

/-- Witness for C3: on the clean router both backends are invoked and the
warnings concatenate; on the erroring router only the first two backends are
invoked and the result is the erroring backend's response carrying the
accumulated diagnostics up to and including the error. -/
theorem c3_configure_fanout_witness :
    confCleanServer.ConfigureProvider { payload := 0 } =
      some ((some { diagnostics := [some warnDiag, some warnDiag], payload := 0 }, none),
            [0, 1]) ∧
    confTestServer.ConfigureProvider { payload := 0 } =
      some ((some { diagnostics := [some warnDiag, some warnDiag, some errDiag],
                    payload := 3 }, none),
            [0, 1]) := by
  constructor
  · exact (c3_configure_fanout confCleanServer { payload := 0 }).1 (by
      intro b hb
      rcases List.mem_cons.mp hb with rfl | hb'
      · exact ⟨_, rfl, by decide⟩
      · rcases List.mem_cons.mp hb' with rfl | hb''
        · exact ⟨_, rfl, by decide⟩
        · simp at hb'')
  · exact (c3_configure_fanout confTestServer { payload := 0 }).2
      [confWarnBackend] confErrBackend [confWarnBackend]
      { diagnostics := [some warnDiag, some errDiag, some warnDiag], payload := 3 }
      rfl
      (by
        intro b hb
        rcases List.mem_cons.mp hb with rfl | hb'
        · exact ⟨_, rfl, by decide⟩
        · simp at hb')
      rfl
      ⟨errDiag, by decide, rfl⟩

/-! ## C10: nil diagnostics are skipped by the configure fan-out -/

/-- Replace a backend's configure behaviour by one whose responses have
their nil diagnostics removed. -/
def stripConfigureNilDiags (b : Backend) : Backend :=
  { b with configureProvider := fun r =>
      match b.configureProvider r with
      | (some resp, e) =>
        (some { resp with diagnostics := (nonNilDiags resp.diagnostics).map some }, e)
      | (none, e) => (none, e) }

/-- The configure walk does not distinguish a diagnostics slice from its
nil-stripped form. -/
theorem appendDiags_strip (ds : List (Option Diagnostic)) :
    ∀ acc, appendDiags acc ((nonNilDiags ds).map some) = appendDiags acc ds := by
  induction ds with
  | nil => intro acc; rfl
  | cons o rest ih =>
    intro acc
    cases o with
    | none =>
      rw [nonNilDiags_none_cons, ih acc]
      rfl
    | some d =>
      rw [nonNilDiags_some_cons]
      by_cases hd : d.severity = .error <;> simp [appendDiags, hd, ih]

/-- The configure walk only ever appends non-nil diagnostics. -/
theorem appendDiags_isSome (ds : List (Option Diagnostic)) :
    ∀ acc, (∀ o ∈ acc, o.isSome = true) →
      ∀ o ∈ (appendDiags acc ds).1, o.isSome = true := by
  induction ds with
  | nil => intro acc hacc; exact hacc
  | cons o rest ih =>
    intro acc hacc
    cases o with
    | none => exact ih acc hacc
    | some d =>
      have hext : ∀ x ∈ acc ++ [some d], x.isSome = true := by
        intro x hx
        rcases List.mem_append.mp hx with hx' | hx'
        · exact hacc x hx'
        · rcases List.mem_singleton.mp hx' with rfl; rfl
      by_cases hd : d.severity = .error
      · have hstep : appendDiags acc (some d :: rest) = (acc ++ [some d], true) := by
          simp [appendDiags, hd]
        rw [hstep]
        exact hext
      · have hstep : appendDiags acc (some d :: rest) = appendDiags (acc ++ [some d]) rest := by
          simp [appendDiags, hd]
        rw [hstep]
        exact ih (acc ++ [some d]) hext

/-- Nil-stripping the backends' configure responses does not change the
configure loop (when no backend raises a transport error). -/
theorem configureLoop_strip (req : ConfigureProviderRequest) :
    ∀ (l : List Backend) (pos : Nat) (acc : List (Option Diagnostic)),
      (∀ b ∈ l, (b.configureProvider req).2 = none) →
      configureLoop req pos acc (l.map stripConfigureNilDiags) =
        configureLoop req pos acc l := by
  intro l
  induction l with
  | nil => intro pos acc _; rfl
  | cons b rest ih =>
    intro pos acc h
    have hb := h b (List.mem_cons_self b rest)
    have hrest : ∀ x ∈ rest, (x.configureProvider req).2 = none :=
      fun x hx => h x (List.mem_cons_of_mem b hx)
    rcases hre : b.configureProvider req with ⟨respOpt, e⟩
    have he : e = none := by rw [hre] at hb; exact hb
    subst he
    cases respOpt with
    | none => simp [configureLoop, stripConfigureNilDiags, hre]
    | some resp =>
      have happ := appendDiags_strip resp.diagnostics acc
      rcases hap : appendDiags acc resp.diagnostics with ⟨newDiags, hit⟩
      cases hit with
      | true => simp [configureLoop, stripConfigureNilDiags, hre, happ, hap]
      | false =>
        simp [configureLoop, stripConfigureNilDiags, hre, happ, hap, ih _ _ hrest]

/-- Any response the configure loop assembles (with no transport error)
carries only non-nil diagnostics. -/
theorem configureLoop_diags_isSome (req : ConfigureProviderRequest) :
    ∀ (l : List Backend) (pos : Nat) (acc : List (Option Diagnostic)),
      (∀ o ∈ acc, o.isSome = true) →
      ∀ res invoked, configureLoop req pos acc l = some ((some res, none), invoked) →
      ∀ o ∈ res.diagnostics, o.isSome = true := by
  intro l
  induction l with
  | nil =>
    intro pos acc hacc res invoked h
    simp only [configureLoop, Option.some_inj, Prod.mk.injEq] at h
    obtain ⟨⟨h1, _⟩, _⟩ := h
    rw [← h1]
    exact hacc
  | cons b rest ih =>
    intro pos acc hacc res invoked h
    rcases hre : b.configureProvider req with ⟨respOpt, e⟩
    cases e with
    | some err => simp [configureLoop, hre] at h
    | none =>
      cases respOpt with
      | none => simp [configureLoop, hre] at h
      | some resp =>
        rcases hap : appendDiags acc resp.diagnostics with ⟨newDiags, hit⟩
        have hnew : ∀ o ∈ newDiags, o.isSome = true := by
          have := appendDiags_isSome resp.diagnostics acc hacc
          rw [hap] at this
          exact this
        cases hit with
        | true =>
          simp only [configureLoop, hre, hap, Option.some_inj, Prod.mk.injEq] at h
          obtain ⟨⟨h1, _⟩, _⟩ := h
          rw [← h1]
          exact hnew
        | false =>
          simp only [configureLoop, hre, hap] at h
          rcases Option.map_eq_some'.mp h with ⟨pr, hpr, hf⟩
          obtain ⟨hpr1, _⟩ := Prod.mk.injEq .. ▸ hf
          exact ih (pos + 1) newDiags hnew res pr.2 (by rw [hpr, ← hpr1])

/-- C10: `ConfigureProvider` skips nil entries of each backend's returned
diagnostics: replacing every backend's configure responses by their
nil-stripped forms leaves the whole operation's outcome unchanged (so a nil
entry is never appended and never triggers — nor escapes — the
error-severity short-circuit, and its severity is never inspected), and
every diagnostic in an assembled response is non-nil. -/
theorem c10_configure_skips_nil_diags (s : SchemaServer) (req : ConfigureProviderRequest) :
    ((∀ b ∈ s.servers, (b.configureProvider req).2 = none) →
      SchemaServer.ConfigureProvider
          { s with servers := s.servers.map stripConfigureNilDiags } req =
        s.ConfigureProvider req) ∧
    (∀ res invoked, s.ConfigureProvider req = some ((some res, none), invoked) →
      ∀ o ∈ res.diagnostics, o.isSome = true) := by
  constructor
  · intro h
    exact configureLoop_strip req s.servers 0 [] h
  · intro res invoked h
    exact configureLoop_diags_isSome req s.servers 0 [] (by simp) res invoked h

/-- Witness for C10: on the three-backend configure router (whose responses
do contain nil diagnostics), nil-stripping every backend's configure
responses leaves the outcome unchanged. -/
theorem c10_configure_skips_nil_diags_witness :
    SchemaServer.ConfigureProvider
        { confTestServer with servers := confTestServer.servers.map stripConfigureNilDiags }
        { payload := 0 } =
      confTestServer.ConfigureProvider { payload := 0 } := by
  refine (c10_configure_skips_nil_diags confTestServer { payload := 0 }).1 ?_
  intro b hb
  rcases List.mem_cons.mp hb with rfl | hb'
  · rfl
  · rcases List.mem_cons.mp hb' with rfl | hb''
    · rfl
    · rcases List.mem_cons.mp hb'' with rfl | hb'''
      · rfl
      · simp at hb'''

/-! ## C8: the build-time diagnostics walk -/

/-- When a schema response's diagnostics hold no error-severity entry, the
build walk skips the nil entries and appends every non-nil diagnostic to the
accumulator in encounter order. -/
theorem walkDiagnostics_no_err (pos : Nat) (ds : List (Option Diagnostic)) :
    ∀ acc, (nonNilDiags ds).find? Diagnostic.isErr = none →
      walkDiagnostics pos acc ds = .ok (acc ++ (nonNilDiags ds).map some) := by
  induction ds with
  | nil => intro acc _; simp [walkDiagnostics, nonNilDiags_nil]
  | cons o rest ih =>
    intro acc h
    cases o with
    | none =>
      rw [nonNilDiags_none_cons] at h ⊢
      exact ih acc h
    | some d =>
      rw [nonNilDiags_some_cons] at h ⊢
      cases hd : d.isErr with
      | true => rw [List.find?_cons_of_pos _ hd] at h; exact absurd h (by simp)
      | false =>
        rw [List.find?_cons_of_neg _ (by simp [hd])] at h
        have hsev : d.severity ≠ .error := by
          simpa [Diagnostic.isErr] using hd
        simp only [walkDiagnostics, if_pos hsev]
        rw [ih (acc ++ [some d]) h]
        simp

/-- The first error-severity diagnostic among the non-nil entries aborts the
build walk with an error carrying its attribute, summary, and detail. -/
theorem walkDiagnostics_err (pos : Nat) (ds : List (Option Diagnostic)) :
    ∀ acc d, (nonNilDiags ds).find? Diagnostic.isErr = some d →
      walkDiagnostics pos acc ds =
        .error (.backendSchemaError pos d.attr d.summary d.detail) := by
  induction ds with
  | nil => intro acc d h; simp [nonNilDiags_nil] at h
  | cons o rest ih =>
    intro acc d h
    cases o with
    | none =>
      rw [nonNilDiags_none_cons] at h
      exact ih acc d h
    | some d' =>
      rw [nonNilDiags_some_cons] at h
      cases hd : d'.isErr with
      | true =>
        rw [List.find?_cons_of_pos _ hd, Option.some_inj] at h
        have hsev : d'.severity = .error := by
          simpa [Diagnostic.isErr] using hd
        rw [← h]
        simp [walkDiagnostics, hsev]
      | false =>
        rw [List.find?_cons_of_neg _ (by simp [hd])] at h
        have hsev : d'.severity ≠ .error := by
          simpa [Diagnostic.isErr] using hd
        simp only [walkDiagnostics, if_pos hsev]
        exact ih (acc ++ [some d']) d h

/-- A successful build walk means no error-severity diagnostic was
present. -/
theorem walkDiagnostics_ok_no_err (pos : Nat) (acc diags ds : List (Option Diagnostic))
    (h : walkDiagnostics pos acc ds = .ok diags) :
    (nonNilDiags ds).find? Diagnostic.isErr = none := by
  cases hf : (nonNilDiags ds).find? Diagnostic.isErr with
  | none => rfl
  | some d =>
    rw [walkDiagnostics_err pos ds acc d hf] at h
    exact absurd h (by simp)

/-- Anatomy of a successful `processBackend` step: every stage succeeded and
the final factory is assembled from the stages' outputs. -/
theorem processBackend_ok_parts (pos : Nat) (f : SchemaServerFactory) (b : Backend)
    (f' : SchemaServerFactory) (h : processBackend pos f b = .ok f') :
    ∃ resp diags f2 f3 res resSch ds dsSch,
      b.getProviderSchema = .ok resp ∧
      walkDiagnostics pos f.diagnostics resp.diagnostics = .ok diags ∧
      recordProvider pos { f with diagnostics := diags } resp = .ok f2 ∧
      recordProviderMeta pos f2 resp = .ok f3 ∧
      registerTypes .duplicateResourceType pos f3.resources f3.resourceSchemas
        resp.resourceSchemas = .ok (res, resSch) ∧
      registerTypes .duplicateDataSourceType pos f3.dataSources f3.dataSourceSchemas
        resp.dataSourceSchemas = .ok (ds, dsSch) ∧
      f' = { f3 with resources := res, resourceSchemas := resSch,
                     dataSources := ds, dataSourceSchemas := dsSch } := by
  cases hg : b.getProviderSchema with
  | error e => simp [processBackend, hg] at h
  | ok resp =>
    simp only [processBackend, hg] at h
    cases hw : walkDiagnostics pos f.diagnostics resp.diagnostics with
    | error e => simp [hw] at h
    | ok diags =>
      simp only [hw] at h
      cases hp : recordProvider pos { f with diagnostics := diags } resp with
      | error e => simp [hp] at h
      | ok f2 =>
        simp only [hp] at h
        cases hm : recordProviderMeta pos f2 resp with
        | error e => simp [hm] at h
        | ok f3 =>
          simp only [hm] at h
          cases hr : registerTypes .duplicateResourceType pos f3.resources f3.resourceSchemas
              resp.resourceSchemas with
          | error e => simp [hr] at h
          | ok p =>
            simp only [hr] at h
            cases hd : registerTypes .duplicateDataSourceType pos f3.dataSources
                f3.dataSourceSchemas resp.dataSourceSchemas with
            | error e => simp [hd] at h
            | ok q =>
              simp only [hd] at h
              refine ⟨resp, diags, f2, f3, p.1, p.2, q.1, q.2, rfl, hw, hp, hm, ?_, ?_, ?_⟩
              · rw [hr]
              · rw [hd]
              · simpa using h.symm

/-- A successful build implies every processed backend's schema call
succeeded with no error-severity diagnostic. -/
theorem buildFrom_ok_clean :
    ∀ (l : List Backend) (pos : Nat) (f f' : SchemaServerFactory),
      buildFrom pos f l = .ok f' →
      ∀ i b, l.get? i = some b →
        ∃ resp, b.getProviderSchema = .ok resp ∧
          (nonNilDiags resp.diagnostics).find? Diagnostic.isErr = none := by
  intro l
  induction l with
  | nil => intro pos f f' _ i b hib; simp at hib
  | cons hd tl ih =>
    intro pos f f' h i b hib
    cases hpb : processBackend pos f hd with
    | error e => simp [buildFrom, hpb] at h
    | ok f1 =>
      simp only [buildFrom, hpb] at h
      cases i with
      | zero =>
        rw [List.get?_cons_zero, Option.some_inj] at hib
        subst hib
        obtain ⟨resp, diags, _, _, _, _, _, _, hg, hw, _⟩ :=
          processBackend_ok_parts pos f hd f1 hpb
        exact ⟨resp, hg, walkDiagnostics_ok_no_err pos f.diagnostics diags resp.diagnostics hw⟩
      | succ j =>
        rw [List.get?_cons_succ] at hib
        exact ih (pos + 1) f1 f' h j b hib

/-- C8: during the build, for every backend's schema response the
diagnostics walk skips nil entries, appends every non-error diagnostic to
the accumulator in encounter order, and aborts the whole build at the first
error-severity diagnostic with an error carrying that diagnostic's
attribute, summary, and detail (so a successful build — one that produces a
routing table — implies no backend reported an error-severity
diagnostic). -/
theorem c8_build_diagnostics_walk :
    (∀ (pos : Nat) (acc ds : List (Option Diagnostic)),
      (nonNilDiags ds).find? Diagnostic.isErr = none →
      walkDiagnostics pos acc ds = .ok (acc ++ (nonNilDiags ds).map some)) ∧
    (∀ (pos : Nat) (acc ds : List (Option Diagnostic)) (d : Diagnostic),
      (nonNilDiags ds).find? Diagnostic.isErr = some d →
      walkDiagnostics pos acc ds =
        .error (.backendSchemaError pos d.attr d.summary d.detail)) ∧
    (∀ (servers : List Backend) (f : SchemaServerFactory) (i : Nat) (b : Backend),
      NewSchemaServerFactory servers = .ok f → servers.get? i = some b →
      ∃ resp, b.getProviderSchema = .ok resp ∧
        (nonNilDiags resp.diagnostics).find? Diagnostic.isErr = none) :=
  ⟨fun pos acc ds h => walkDiagnostics_no_err pos ds acc h,
   fun pos acc ds d h => walkDiagnostics_err pos ds acc d h,
   fun servers f i b hok hib =>
     buildFrom_ok_clean servers 0 (initFactory servers) f hok i b hib⟩

/-- Witness for C8: the walk of `[nil, warning]` skips the nil entry and
appends the warning; the walk of `[warning, error, warning]` aborts with the
error diagnostic's attribute, summary, and detail; and the successful build
over `warnDiagBackend` reports its backend clean. -/
theorem c8_build_diagnostics_walk_witness :
    walkDiagnostics 0 [] [none, some warnDiag] = .ok [some warnDiag] ∧
    walkDiagnostics 1 [] [some warnDiag, some errDiag, some warnDiag] =
      .error (.backendSchemaError 1 (some "attr") "bad" "bad detail") := by
  constructor
  · exact c8_build_diagnostics_walk.1 0 [] [none, some warnDiag] (by decide)
  · exact c8_build_diagnostics_walk.2.1 1 [] [some warnDiag, some errDiag, some warnDiag]
      errDiag (by decide)

/-! ## Association-list lemmas -/

theorem assocLookup_append_of_some {α : Type} (key : String) (xs ys : List (String × α))
    (v : α) (h : assocLookup key xs = some v) :
    assocLookup key (xs ++ ys) = some v := by
  induction xs with
  | nil => simp [assocLookup] at h
  | cons p rest ih =>
    by_cases hp : p.1 = key
    · simp only [assocLookup, if_pos hp] at h
      simp [assocLookup, hp, h]
    · simp only [assocLookup, if_neg hp] at h
      simp [assocLookup, hp, ih h]

theorem assocLookup_append_of_none {α : Type} (key : String) (xs ys : List (String × α))
    (h : assocLookup key xs = none) :
    assocLookup key (xs ++ ys) = assocLookup key ys := by
  induction xs with
  | nil => simp [assocLookup]
  | cons p rest ih =>
    by_cases hp : p.1 = key
    · simp [assocLookup, hp] at h
    · simp only [assocLookup, if_neg hp] at h
      simp [assocLookup, hp, ih h]

theorem assocLookup_eq_none_iff {α : Type} (key : String) (l : List (String × α)) :
    assocLookup key l = none ↔ key ∉ l.map Prod.fst := by
  induction l with
  | nil => simp [assocLookup]
  | cons p rest ih =>
    by_cases hp : p.1 = key
    · simp [assocLookup, hp]
    · simp [assocLookup, hp, ih, Ne.symm hp]

theorem assocLookup_isSome_iff {α : Type} (key : String) (l : List (String × α)) :
    (assocLookup key l).isSome = true ↔ key ∈ l.map Prod.fst := by
  rw [← Option.ne_none_iff_isSome]
  constructor
  · intro h
    by_contra hmem
    exact h ((assocLookup_eq_none_iff key l).mpr hmem)
  · intro h hnone
    exact (assocLookup_eq_none_iff key l).mp hnone h

theorem assocLookup_map_const {α β : Type} (key : String) (l : List (String × α)) (c : β) :
    assocLookup key (l.map (fun p => (p.1, c))) = (assocLookup key l).map (fun _ => c) := by
  induction l with
  | nil => simp [assocLookup]
  | cons p rest ih =>
    by_cases hp : p.1 = key
    · simp [assocLookup, hp]
    · simp [assocLookup, hp, ih]

theorem assocLookup_isSome_of_mem {α : Type} {key : String} {v : α} {l : List (String × α)}
    (h : (key, v) ∈ l) : (assocLookup key l).isSome = true := by
  rw [assocLookup_isSome_iff]
  exact List.mem_map.mpr ⟨(key, v), h, rfl⟩

/-! ## Lemmas about the type-registration loop -/

/-- Anatomy of a successful type-registration loop: each entry is appended
to the registry (owned by `pos`) and to the schema store, and success forces
every registered name to be fresh and the response's names to be
duplicate-free. -/
theorem registerTypes_ok_parts (mkErr : String → Nat → Nat → MuxError) (pos : Nat) :
    ∀ (l : List (String × Option Schema)) (reg : List (String × Nat))
      (sch : List (String × Option Schema)) (reg' : List (String × Nat))
      (sch' : List (String × Option Schema)),
      registerTypes mkErr pos reg sch l = .ok (reg', sch') →
      reg' = reg ++ l.map (fun p => (p.1, pos)) ∧ sch' = sch ++ l ∧
        (∀ p ∈ l, assocLookup p.1 reg = none) ∧ (l.map Prod.fst).Nodup := by
  intro l
  induction l with
  | nil =>
    intro reg sch reg' sch' h
    simp only [registerTypes, Except.ok.injEq, Prod.mk.injEq] at h
    simp [← h.1, ← h.2]
  | cons p rest ih =>
    intro reg sch reg' sch' h
    obtain ⟨name, schema⟩ := p
    cases hl : assocLookup name reg with
    | some v => simp [registerTypes, hl] at h
    | none =>
      simp only [registerTypes, hl] at h
      obtain ⟨hreg, hsch, hfresh, hnodup⟩ :=
        ih (reg ++ [(name, pos)]) (sch ++ [(name, schema)]) reg' sch' h
      have hfresh' : ∀ q ∈ rest, assocLookup q.1 reg = none ∧ q.1 ≠ name := by
        intro q hq
        have := hfresh q hq
        cases hques : assocLookup q.1 reg with
        | some w =>
          rw [assocLookup_append_of_some q.1 reg [(name, pos)] w hques] at this
          exact absurd this (by simp)
        | none =>
          rw [assocLookup_append_of_none q.1 reg [(name, pos)] hques] at this
          refine ⟨rfl, ?_⟩
          intro hqe
          simp [assocLookup, hqe] at this
      refine ⟨?_, ?_, ?_, ?_⟩
      · rw [hreg]; simp
      · rw [hsch]; simp
      · intro q hq
        rcases List.mem_cons.mp hq with rfl | hq'
        · exact hl
        · exact (hfresh' q hq').1
      · simp only [List.map_cons, List.nodup_cons]
        refine ⟨?_, hnodup⟩
        intro hmem
        rcases List.mem_map.mp hmem with ⟨q, hq, hqe⟩
        exact (hfresh' q hq).2 hqe

/-- Anatomy of a failing type-registration loop: the error is the supplied
duplicate error for some name of the response, whose recorded owner either
was already in the registry or (only when the response itself repeats a
name) is the current backend. -/
theorem registerTypes_err_parts (mkErr : String → Nat → Nat → MuxError) (pos : Nat) :
    ∀ (l : List (String × Option Schema)) (reg : List (String × Nat))
      (sch : List (String × Option Schema)) (e : MuxError),
      registerTypes mkErr pos reg sch l = .error e →
      ∃ t v, e = mkErr t v pos ∧ t ∈ l.map Prod.fst ∧
        (assocLookup t reg = some v ∨ (v = pos ∧ ¬ (l.map Prod.fst).Nodup)) := by
  intro l
  induction l with
  | nil => intro reg sch e h; simp [registerTypes] at h
  | cons p rest ih =>
    intro reg sch e h
    obtain ⟨name, schema⟩ := p
    cases hl : assocLookup name reg with
    | some v =>
      simp only [registerTypes, hl, Except.error.injEq] at h
      exact ⟨name, v, h.symm, by simp, Or.inl hl⟩
    | none =>
      simp only [registerTypes, hl] at h
      obtain ⟨t, v, he, hmem, hv⟩ := ih (reg ++ [(name, pos)]) (sch ++ [(name, schema)]) e h
      rcases hv with hv | ⟨hvp, hnd⟩
      · cases hteq : assocLookup t reg with
        | some w =>
          rw [assocLookup_append_of_some t reg [(name, pos)] w hteq] at hv
          exact ⟨t, v, he, by simp [hmem], Or.inl (hteq.trans hv)⟩
        | none =>
          rw [assocLookup_append_of_none t reg [(name, pos)] hteq] at hv
          have hten : t = name := by
            by_cases htn : name = t
            · exact htn.symm
            · simp [assocLookup, htn] at hv
          have hvp : v = pos := by
            rw [hten] at hv
            simpa [assocLookup] using hv.symm
          refine ⟨t, v, he, by simp [hmem], Or.inr ⟨hvp, ?_⟩⟩
          simp only [List.map_cons, List.nodup_cons]
          intro hc
          exact hc.1 (hten ▸ hmem)
      · refine ⟨t, v, he, by simp [hmem], Or.inr ⟨hvp, ?_⟩⟩
        simp only [List.map_cons, List.nodup_cons]
        intro hc
        exact hnd hc.2

/-! ## Anatomy of the provider-schema recording steps -/

theorem recordProvider_ok_parts (pos : Nat) (f : SchemaServerFactory)
    (resp : GetProviderSchemaResponse) (f' : SchemaServerFactory)
    (h : recordProvider pos f resp = .ok f') :
    (resp.provider = none ∧ f' = f) ∨
      (resp.provider.isSome = true ∧ f.providerSchema = none ∧
        f' = { f with providerSchemaFrom := (pos : Int), providerSchema := resp.provider }) := by
  unfold recordProvider at h
  cases hr : resp.provider with
  | none =>
    cases hp : f.providerSchema with
    | none => simp only [hr, hp] at h; left; exact ⟨rfl, by simpa using h.symm⟩
    | some w => simp only [hr, hp] at h; left; exact ⟨rfl, by simpa using h.symm⟩
  | some w =>
    cases hp : f.providerSchema with
    | none =>
      simp only [hr, hp] at h
      right
      refine ⟨rfl, rfl, ?_⟩
      simpa [hr] using h.symm
    | some w' => simp [hr, hp] at h

theorem recordProvider_err_parts (pos : Nat) (f : SchemaServerFactory)
    (resp : GetProviderSchemaResponse) (e : MuxError)
    (h : recordProvider pos f resp = .error e) :
    e = .duplicateProviderSchema f.providerSchemaFrom pos ∧
      resp.provider.isSome = true ∧ f.providerSchema.isSome = true := by
  unfold recordProvider at h
  cases hr : resp.provider with
  | none =>
    rw [hr] at h
    cases hp : f.providerSchema with
    | none => simp at h
    | some w => simp at h
  | some w =>
    rw [hr] at h
    cases hp : f.providerSchema with
    | none => rw [hp] at h; simp at h
    | some w' =>
      rw [hp] at h
      simp only [Option.isSome_some, Bool.and_self, if_pos, Except.error.injEq] at h
      exact ⟨h.symm, by simp [hr], by simp [hp]⟩

theorem recordProvider_frame (pos : Nat) (f : SchemaServerFactory)
    (resp : GetProviderSchemaResponse) (f' : SchemaServerFactory)
    (h : recordProvider pos f resp = .ok f') :
    f'.resources = f.resources ∧ f'.dataSources = f.dataSources ∧
      f'.resourceSchemas = f.resourceSchemas ∧ f'.dataSourceSchemas = f.dataSourceSchemas ∧
      f'.diagnostics = f.diagnostics ∧ f'.servers = f.servers ∧
      f'.providerMetaSchema = f.providerMetaSchema ∧
      f'.providerMetaSchemaFrom = f.providerMetaSchemaFrom := by
  rcases recordProvider_ok_parts pos f resp f' h with ⟨_, rfl⟩ | ⟨_, _, rfl⟩ <;> simp

theorem recordProviderMeta_ok_parts (pos : Nat) (f : SchemaServerFactory)
    (resp : GetProviderSchemaResponse) (f' : SchemaServerFactory)
    (h : recordProviderMeta pos f resp = .ok f') :
    (resp.providerMeta = none ∧ f' = f) ∨
      (resp.providerMeta.isSome = true ∧ f.providerMetaSchema = none ∧
        f' = { f with providerMetaSchemaFrom := (pos : Int),
                      providerMetaSchema := resp.providerMeta }) := by
  unfold recordProviderMeta at h
  cases hr : resp.providerMeta with
  | none =>
    cases hp : f.providerMetaSchema with
    | none => simp only [hr, hp] at h; left; exact ⟨rfl, by simpa using h.symm⟩
    | some w => simp only [hr, hp] at h; left; exact ⟨rfl, by simpa using h.symm⟩
  | some w =>
    cases hp : f.providerMetaSchema with
    | none =>
      simp only [hr, hp] at h
      right
      refine ⟨rfl, rfl, ?_⟩
      simpa [hr] using h.symm
    | some w' => simp [hr, hp] at h

theorem recordProviderMeta_err_parts (pos : Nat) (f : SchemaServerFactory)
    (resp : GetProviderSchemaResponse) (e : MuxError)
    (h : recordProviderMeta pos f resp = .error e) :
    e = .duplicateProviderMetaSchema f.providerMetaSchemaFrom pos ∧
      resp.providerMeta.isSome = true ∧ f.providerMetaSchema.isSome = true := by
  unfold recordProviderMeta at h
  cases hr : resp.providerMeta with
  | none =>
    rw [hr] at h
    cases hp : f.providerMetaSchema with
    | none => simp at h
    | some w => simp at h
  | some w =>
    rw [hr] at h
    cases hp : f.providerMetaSchema with
    | none => rw [hp] at h; simp at h
    | some w' =>
      rw [hp] at h
      simp only [Option.isSome_some, Bool.and_self, if_pos, Except.error.injEq] at h
      exact ⟨h.symm, by simp [hr], by simp [hp]⟩

theorem recordProviderMeta_frame (pos : Nat) (f : SchemaServerFactory)
    (resp : GetProviderSchemaResponse) (f' : SchemaServerFactory)
    (h : recordProviderMeta pos f resp = .ok f') :
    f'.resources = f.resources ∧ f'.dataSources = f.dataSources ∧
      f'.resourceSchemas = f.resourceSchemas ∧ f'.dataSourceSchemas = f.dataSourceSchemas ∧
      f'.diagnostics = f.diagnostics ∧ f'.servers = f.servers ∧
      f'.providerSchema = f.providerSchema ∧
      f'.providerSchemaFrom = f.providerSchemaFrom := by
  rcases recordProviderMeta_ok_parts pos f resp f' h with ⟨_, rfl⟩ | ⟨_, _, rfl⟩ <;> simp

/-- A failing build walk fails exactly at the first error-severity
diagnostic. -/
theorem walkDiagnostics_err_parts (pos : Nat) (acc ds : List (Option Diagnostic))
    (e : MuxError) (h : walkDiagnostics pos acc ds = .error e) :
    ∃ d, (nonNilDiags ds).find? Diagnostic.isErr = some d ∧
      e = .backendSchemaError pos d.attr d.summary d.detail := by
  cases hf : (nonNilDiags ds).find? Diagnostic.isErr with
  | none =>
    rw [walkDiagnostics_no_err pos ds acc hf] at h
    exact absurd h (by simp)
  | some d =>
    rw [walkDiagnostics_err pos ds acc d hf] at h
    exact ⟨d, rfl, by simpa using h.symm⟩

/-- Anatomy of a failing `processBackend` step: one of the six stages
failed, giving the corresponding error shape. -/
theorem processBackend_err_parts (pos : Nat) (f : SchemaServerFactory) (b : Backend)
    (e : MuxError) (h : processBackend pos f b = .error e) :
    (∃ cause, b.getProviderSchema = .error cause ∧ e = .schemaRetrievalFailed pos cause) ∨
    (∃ resp d, b.getProviderSchema = .ok resp ∧
      (nonNilDiags resp.diagnostics).find? Diagnostic.isErr = some d ∧
      e = .backendSchemaError pos d.attr d.summary d.detail) ∨
    (∃ resp, b.getProviderSchema = .ok resp ∧
      e = .duplicateProviderSchema f.providerSchemaFrom pos ∧
      resp.provider.isSome = true ∧ f.providerSchema.isSome = true) ∨
    (∃ resp, b.getProviderSchema = .ok resp ∧
      e = .duplicateProviderMetaSchema f.providerMetaSchemaFrom pos ∧
      resp.providerMeta.isSome = true ∧ f.providerMetaSchema.isSome = true) ∨
    (∃ resp t v, b.getProviderSchema = .ok resp ∧
      e = .duplicateResourceType t v pos ∧ t ∈ resp.resourceSchemas.map Prod.fst ∧
      (assocLookup t f.resources = some v ∨
        (v = pos ∧ ¬ (resp.resourceSchemas.map Prod.fst).Nodup))) ∨
    (∃ resp t v, b.getProviderSchema = .ok resp ∧
      e = .duplicateDataSourceType t v pos ∧ t ∈ resp.dataSourceSchemas.map Prod.fst ∧
      (assocLookup t f.dataSources = some v ∨
        (v = pos ∧ ¬ (resp.dataSourceSchemas.map Prod.fst).Nodup))) := by
  cases hg : b.getProviderSchema with
  | error cause =>
    simp only [processBackend, hg, Except.error.injEq] at h
    exact Or.inl ⟨cause, rfl, h.symm⟩
  | ok resp =>
    simp only [processBackend, hg] at h
    cases hw : walkDiagnostics pos f.diagnostics resp.diagnostics with
    | error e' =>
      simp only [hw, Except.error.injEq] at h
      obtain ⟨d, hfind, hde⟩ := walkDiagnostics_err_parts pos f.diagnostics resp.diagnostics e' hw
      exact Or.inr (Or.inl ⟨resp, d, rfl, hfind, h ▸ hde⟩)
    | ok diags =>
      simp only [hw] at h
      cases hp : recordProvider pos { f with diagnostics := diags } resp with
      | error e' =>
        simp only [hp, Except.error.injEq] at h
        obtain ⟨he, hrp, hfp⟩ := recordProvider_err_parts pos _ resp e' hp
        exact Or.inr (Or.inr (Or.inl ⟨resp, rfl, h ▸ he, hrp, hfp⟩))
      | ok f2 =>
        simp only [hp] at h
        obtain ⟨hf2res, hf2ds, hf2rs, hf2dss, _, _, hf2meta, hf2metaFrom⟩ :=
          recordProvider_frame pos _ resp f2 hp
        cases hm : recordProviderMeta pos f2 resp with
        | error e' =>
          simp only [hm, Except.error.injEq] at h
          obtain ⟨he, hrm, hfm⟩ := recordProviderMeta_err_parts pos f2 resp e' hm
          rw [hf2metaFrom] at he
          rw [hf2meta] at hfm
          exact Or.inr (Or.inr (Or.inr (Or.inl ⟨resp, rfl, h ▸ he, hrm, hfm⟩)))
        | ok f3 =>
          simp only [hm] at h
          obtain ⟨hf3res, hf3ds, hf3rs, hf3dss, _, _, _, _⟩ :=
            recordProviderMeta_frame pos f2 resp f3 hm
          cases hr : registerTypes .duplicateResourceType pos f3.resources f3.resourceSchemas
              resp.resourceSchemas with
          | error e' =>
            simp only [hr, Except.error.injEq] at h
            obtain ⟨t, v, he, hmem, hv⟩ :=
              registerTypes_err_parts .duplicateResourceType pos resp.resourceSchemas
                f3.resources f3.resourceSchemas e' hr
            rw [hf3res, hf2res] at hv
            exact Or.inr (Or.inr (Or.inr (Or.inr (Or.inl ⟨resp, t, v, rfl, h ▸ he, hmem, hv⟩))))
          | ok p =>
            simp only [hr] at h
            cases hd : registerTypes .duplicateDataSourceType pos f3.dataSources
                f3.dataSourceSchemas resp.dataSourceSchemas with
            | error e' =>
              obtain ⟨q1, q2⟩ := p
              simp only [hd, Except.error.injEq] at h
              obtain ⟨t, v, he, hmem, hv⟩ :=
                registerTypes_err_parts .duplicateDataSourceType pos resp.dataSourceSchemas
                  f3.dataSources f3.dataSourceSchemas e' hd
              rw [hf3ds, hf2ds] at hv
              exact Or.inr (Or.inr (Or.inr (Or.inr (Or.inr ⟨resp, t, v, rfl, h ▸ he, hmem, hv⟩))))
            | ok q =>
              obtain ⟨q1, q2⟩ := p
              obtain ⟨q3, q4⟩ := q
              simp [hd] at h

/-! ## Build invariants -/

/-- Invariant of a type registry after the first `k` backends: every entry
points at a true declarer below `k` with its declared schema stored, every
declared name of a backend below `k` is registered to that backend, and the
registry and the schema store hold the same keys. -/
def RegInv (decl : Nat → String → Option (Option Schema)) (k : Nat)
    (reg : List (String × Nat)) (sch : List (String × Option Schema)) : Prop :=
  (∀ name pos, assocLookup name reg = some pos →
     pos < k ∧ (decl pos name).isSome = true ∧ assocLookup name sch = decl pos name) ∧
  (∀ name pos, pos < k → (decl pos name).isSome = true →
     assocLookup name reg = some pos) ∧
  sch.map Prod.fst = reg.map Prod.fst

/-- Invariant of the provider-schema (or provider-meta) owner after the
first `k` backends: either no backend below `k` declared one (owner `-1`,
no schema), or the owner is the unique declarer below `k` and its schema is
recorded. -/
def ProvInv (declOf : Nat → Option Schema) (k : Nat) (owner : Int)
    (cur : Option Schema) : Prop :=
  (owner = -1 ∧ cur = none ∧ ∀ q, q < k → declOf q = none) ∨
  (∃ pos, pos < k ∧ owner = (pos : Int) ∧ cur = declOf pos ∧ (declOf pos).isSome = true ∧
     ∀ q, q < k → (declOf q).isSome = true → q = pos)

/-- The full invariant of the factory state after the first `k` backends. -/
def BuildInv (servers : List Backend) (k : Nat) (f : SchemaServerFactory) : Prop :=
  RegInv (fun pos name => resSchemaOf servers pos name) k f.resources f.resourceSchemas ∧
  RegInv (fun pos name => dsSchemaOf servers pos name) k f.dataSources f.dataSourceSchemas ∧
  ProvInv (provOf servers) k f.providerSchemaFrom f.providerSchema ∧
  ProvInv (metaOf servers) k f.providerMetaSchemaFrom f.providerMetaSchema

/-- A successful registration of backend `k`'s declared types preserves the
registry invariant. -/
theorem RegInv_step (mkErr : String → Nat → Nat → MuxError)
    (decl : Nat → String → Option (Option Schema)) (k : Nat)
    (reg : List (String × Nat)) (sch l : List (String × Option Schema))
    (reg' : List (String × Nat)) (sch' : List (String × Option Schema))
    (hdecl : ∀ name, decl k name = assocLookup name l)
    (hok : registerTypes mkErr k reg sch l = .ok (reg', sch'))
    (hinv : RegInv decl k reg sch) : RegInv decl (k + 1) reg' sch' := by
  obtain ⟨hreg, hsch, hfresh, _⟩ := registerTypes_ok_parts mkErr k l reg sch reg' sch' hok
  obtain ⟨inv1, inv2, inv3⟩ := hinv
  subst hreg
  subst hsch
  refine ⟨?_, ?_, ?_⟩
  · intro name pos hl
    cases hro : assocLookup name reg with
    | some v =>
      rw [assocLookup_append_of_some name reg _ v hro, Option.some_inj] at hl
      subst hl
      obtain ⟨hlt, hds, hstore⟩ := inv1 name v hro
      obtain ⟨w, hw⟩ := Option.isSome_iff_exists.mp hds
      refine ⟨Nat.lt_succ_of_lt hlt, hds, ?_⟩
      rw [assocLookup_append_of_some name sch l w (by rw [hstore, hw])]
      exact hw.symm
    | none =>
      rw [assocLookup_append_of_none name reg _ hro, assocLookup_map_const] at hl
      rcases Option.map_eq_some'.mp hl with ⟨a, ha, hk⟩
      subst hk
      have hdk : decl k name = some a := by rw [hdecl name, ha]
      have hschnone : assocLookup name sch = none := by
        rw [assocLookup_eq_none_iff, inv3]
        exact (assocLookup_eq_none_iff name reg).mp hro
      refine ⟨Nat.lt_succ_self k, by simp [hdk], ?_⟩
      rw [assocLookup_append_of_none name sch l hschnone]
      exact (hdecl name).symm
  · intro name pos hlt hds
    rcases Nat.lt_succ_iff_lt_or_eq.mp hlt with hlt' | rfl
    · exact assocLookup_append_of_some name reg _ pos (inv2 name pos hlt' hds)
    · rw [hdecl name] at hds
      rcases Option.isSome_iff_exists.mp hds with ⟨a, ha⟩
      have hmem : name ∈ l.map Prod.fst := (assocLookup_isSome_iff name l).mp (by simp [ha])
      rcases List.mem_map.mp hmem with ⟨p, hp, hpe⟩
      have hro : assocLookup name reg = none := hpe ▸ hfresh p hp
      rw [assocLookup_append_of_none name reg _ hro, assocLookup_map_const, ha]
      rfl
  · simp only [List.map_append, inv3, List.map_map]
    rfl

/-- The provider-schema recording step preserves the owner invariant,
whether or not backend `k` declares a schema. -/
theorem ProvInv_step (declOf : Nat → Option Schema) (k : Nat) (owner : Int)
    (cur : Option Schema) (hinv : ProvInv declOf k owner cur) :
    (declOf k = none → ProvInv declOf (k + 1) owner cur) ∧
    ((declOf k).isSome = true → cur = none → ProvInv declOf (k + 1) (k : Int) (declOf k)) := by
  constructor
  · intro hnone
    rcases hinv with ⟨h1, h2, h3⟩ | ⟨pos, hlt, h1, h2, h3, h4⟩
    · refine Or.inl ⟨h1, h2, ?_⟩
      intro q hq
      rcases Nat.lt_succ_iff_lt_or_eq.mp hq with hq' | rfl
      · exact h3 q hq'
      · exact hnone
    · refine Or.inr ⟨pos, Nat.lt_succ_of_lt hlt, h1, h2, h3, ?_⟩
      intro q hq hds
      rcases Nat.lt_succ_iff_lt_or_eq.mp hq with hq' | rfl
      · exact h4 q hq' hds
      · rw [hnone] at hds; simp at hds
  · intro hds hcur
    rcases hinv with ⟨h1, h2, h3⟩ | ⟨pos, hlt, h1, h2, h3, h4⟩
    · refine Or.inr ⟨k, Nat.lt_succ_self k, rfl, rfl, hds, ?_⟩
      intro q hq hq'
      rcases Nat.lt_succ_iff_lt_or_eq.mp hq with hq'' | rfl
      · rw [h3 q hq''] at hq'; simp at hq'
      · rfl
    · rw [hcur] at h2
      rw [← h2] at h3
      simp at h3

/-! ## Bridges between the declaration vocabulary and a backend's response -/

theorem resSchemaOf_eq (servers : List Backend) (k : Nat) (b : Backend)
    (resp : GetProviderSchemaResponse) (hk : servers.get? k = some b)
    (hg : b.getProviderSchema = .ok resp) :
    ∀ name, resSchemaOf servers k name = assocLookup name resp.resourceSchemas := by
  have hk' : servers[k]? = some b := by rw [← List.get?_eq_getElem?]; exact hk
  intro name; simp [resSchemaOf, hk', hg]

theorem dsSchemaOf_eq (servers : List Backend) (k : Nat) (b : Backend)
    (resp : GetProviderSchemaResponse) (hk : servers.get? k = some b)
    (hg : b.getProviderSchema = .ok resp) :
    ∀ name, dsSchemaOf servers k name = assocLookup name resp.dataSourceSchemas := by
  have hk' : servers[k]? = some b := by rw [← List.get?_eq_getElem?]; exact hk
  intro name; simp [dsSchemaOf, hk', hg]

theorem provOf_eq (servers : List Backend) (k : Nat) (b : Backend)
    (resp : GetProviderSchemaResponse) (hk : servers.get? k = some b)
    (hg : b.getProviderSchema = .ok resp) :
    provOf servers k = resp.provider := by
  have hk' : servers[k]? = some b := by rw [← List.get?_eq_getElem?]; exact hk
  simp [provOf, hk', hg]

theorem metaOf_eq (servers : List Backend) (k : Nat) (b : Backend)
    (resp : GetProviderSchemaResponse) (hk : servers.get? k = some b)
    (hg : b.getProviderSchema = .ok resp) :
    metaOf servers k = resp.providerMeta := by
  have hk' : servers[k]? = some b := by rw [← List.get?_eq_getElem?]; exact hk
  simp [metaOf, hk', hg]

/-- A successful `processBackend` step preserves the full build invariant
and leaves the server list unchanged. -/
theorem BuildInv_step (servers : List Backend) (k : Nat) (f f' : SchemaServerFactory)
    (b : Backend) (hk : servers.get? k = some b)
    (hok : processBackend k f b = .ok f')
    (hinv : BuildInv servers k f) :
    BuildInv servers (k + 1) f' ∧ f'.servers = f.servers := by
  obtain ⟨resp, diags, f2, f3, res, resSch, ds, dsSch, hg, hw, hp, hm, hr, hd, hf'⟩ :=
    processBackend_ok_parts k f b f' hok
  obtain ⟨hres2, hds2, hrs2, hdss2, _, hsrv2, hmeta2, hmetaFrom2⟩ :=
    recordProvider_frame k _ resp f2 hp
  obtain ⟨hres3, hds3, hrs3, hdss3, _, hsrv3, hprov3, hprovFrom3⟩ :=
    recordProviderMeta_frame k f2 resp f3 hm
  obtain ⟨hResInv, hDSInv, hProvInv, hMetaInv⟩ := hinv
  have hfr : f3.resources = f.resources := by rw [hres3, hres2]
  have hfrs : f3.resourceSchemas = f.resourceSchemas := by rw [hrs3, hrs2]
  have hfd : f3.dataSources = f.dataSources := by rw [hds3, hds2]
  have hfds : f3.dataSourceSchemas = f.dataSourceSchemas := by rw [hdss3, hdss2]
  have hResStep : RegInv (fun pos name => resSchemaOf servers pos name) (k + 1) res resSch := by
    refine RegInv_step .duplicateResourceType _ k f3.resources f3.resourceSchemas
      resp.resourceSchemas res resSch (resSchemaOf_eq servers k b resp hk hg) hr ?_
    rw [hfr, hfrs]
    exact hResInv
  have hDSStep : RegInv (fun pos name => dsSchemaOf servers pos name) (k + 1) ds dsSch := by
    refine RegInv_step .duplicateDataSourceType _ k f3.dataSources f3.dataSourceSchemas
      resp.dataSourceSchemas ds dsSch (dsSchemaOf_eq servers k b resp hk hg) hd ?_
    rw [hfd, hfds]
    exact hDSInv
  have hProvStep : ProvInv (provOf servers) (k + 1) f2.providerSchemaFrom f2.providerSchema := by
    rcases recordProvider_ok_parts k _ resp f2 hp with ⟨hnone, hf2⟩ | ⟨hsome, hcur, hf2⟩
    · rw [hf2]
      exact (ProvInv_step (provOf servers) k f.providerSchemaFrom f.providerSchema hProvInv).1
        (by rw [provOf_eq servers k b resp hk hg]; exact hnone)
    · rw [hf2]
      have := (ProvInv_step (provOf servers) k f.providerSchemaFrom f.providerSchema hProvInv).2
        (by rw [provOf_eq servers k b resp hk hg]; exact hsome) hcur
      rw [provOf_eq servers k b resp hk hg] at this
      exact this
  have hMetaStep : ProvInv (metaOf servers) (k + 1) f3.providerMetaSchemaFrom
      f3.providerMetaSchema := by
    have hMetaInv2 : ProvInv (metaOf servers) k f2.providerMetaSchemaFrom
        f2.providerMetaSchema := by
      rw [hmetaFrom2, hmeta2]
      exact hMetaInv
    rcases recordProviderMeta_ok_parts k f2 resp f3 hm with ⟨hnone, hf3⟩ | ⟨hsome, hcur, hf3⟩
    · rw [hf3]
      exact (ProvInv_step (metaOf servers) k f2.providerMetaSchemaFrom f2.providerMetaSchema
        hMetaInv2).1 (by rw [metaOf_eq servers k b resp hk hg]; exact hnone)
    · rw [hf3]
      have := (ProvInv_step (metaOf servers) k f2.providerMetaSchemaFrom f2.providerMetaSchema
        hMetaInv2).2 (by rw [metaOf_eq servers k b resp hk hg]; exact hsome) hcur
      rw [metaOf_eq servers k b resp hk hg] at this
      exact this
  refine ⟨⟨?_, ?_, ?_, ?_⟩, ?_⟩
  · rw [show f'.resources = res by rw [hf'], show f'.resourceSchemas = resSch by rw [hf']]
    exact hResStep
  · rw [show f'.dataSources = ds by rw [hf'], show f'.dataSourceSchemas = dsSch by rw [hf']]
    exact hDSStep
  · rw [show f'.providerSchemaFrom = f2.providerSchemaFrom by rw [hf']; exact hprovFrom3,
        show f'.providerSchema = f2.providerSchema by rw [hf']; exact hprov3]
    exact hProvStep
  · rw [show f'.providerMetaSchemaFrom = f3.providerMetaSchemaFrom by rw [hf'],
        show f'.providerMetaSchema = f3.providerMetaSchema by rw [hf']]
    exact hMetaStep
  · rw [show f'.servers = f3.servers by rw [hf'], hsrv3, hsrv2]

/-! ## Soundness of the build outcome -/

theorem resKeys_eq (servers : List Backend) (k : Nat) (b : Backend)
    (resp : GetProviderSchemaResponse) (hk : servers.get? k = some b)
    (hg : b.getProviderSchema = .ok resp) :
    resKeys servers k = resp.resourceSchemas.map Prod.fst := by
  have hk' : servers[k]? = some b := by rw [← List.get?_eq_getElem?]; exact hk
  simp [resKeys, hk', hg]

theorem dsKeys_eq (servers : List Backend) (k : Nat) (b : Backend)
    (resp : GetProviderSchemaResponse) (hk : servers.get? k = some b)
    (hg : b.getProviderSchema = .ok resp) :
    dsKeys servers k = resp.dataSourceSchemas.map Prod.fst := by
  have hk' : servers[k]? = some b := by rw [← List.get?_eq_getElem?]; exact hk
  simp [dsKeys, hk', hg]

theorem declaresRes_lt (servers : List Backend) (pos : Nat) (name : String)
    (h : declaresRes servers pos name) : pos < servers.length := by
  unfold declaresRes resSchemaOf at h
  cases hq : servers.get? pos with
  | none =>
    rw [hq] at h
    simp at h
  | some b =>
    obtain ⟨hlt, _⟩ := List.get?_eq_some.mp hq
    exact hlt

theorem declaresDS_lt (servers : List Backend) (pos : Nat) (name : String)
    (h : declaresDS servers pos name) : pos < servers.length := by
  unfold declaresDS dsSchemaOf at h
  cases hq : servers.get? pos with
  | none =>
    rw [hq] at h
    simp at h
  | some b =>
    obtain ⟨hlt, _⟩ := List.get?_eq_some.mp hq
    exact hlt

theorem declaresProv_lt (servers : List Backend) (pos : Nat)
    (h : declaresProv servers pos) : pos < servers.length := by
  unfold declaresProv provOf at h
  cases hq : servers.get? pos with
  | none =>
    rw [hq] at h
    simp at h
  | some b =>
    obtain ⟨hlt, _⟩ := List.get?_eq_some.mp hq
    exact hlt

theorem declaresMeta_lt (servers : List Backend) (pos : Nat)
    (h : declaresMeta servers pos) : pos < servers.length := by
  unfold declaresMeta metaOf at h
  cases hq : servers.get? pos with
  | none =>
    rw [hq] at h
    simp at h
  | some b =>
    obtain ⟨hlt, _⟩ := List.get?_eq_some.mp hq
    exact hlt

/-- What each build error truthfully reports about the backends. -/
def ErrSound (servers : List Backend) (e : MuxError) : Prop :=
  match e with
  | .schemaRetrievalFailed pos cause =>
      ∃ b, servers.get? pos = some b ∧ b.getProviderSchema = .error cause
  | .backendSchemaError pos a summ det =>
      ∃ b resp d, servers.get? pos = some b ∧ b.getProviderSchema = .ok resp ∧
        (nonNilDiags resp.diagnostics).find? Diagnostic.isErr = some d ∧
        d.attr = a ∧ d.summary = summ ∧ d.detail = det
  | .duplicateProviderSchema a bpos =>
      (∃ pa : Nat, a = (pa : Int) ∧ pa < bpos ∧ declaresProv servers pa) ∧
        declaresProv servers bpos
  | .duplicateProviderMetaSchema a bpos =>
      (∃ pa : Nat, a = (pa : Int) ∧ pa < bpos ∧ declaresMeta servers pa) ∧
        declaresMeta servers bpos
  | .duplicateResourceType t a bpos =>
      declaresRes servers bpos t ∧
        ((a < bpos ∧ declaresRes servers a t) ∨ (a = bpos ∧ ¬ (resKeys servers bpos).Nodup))
  | .duplicateDataSourceType t a bpos =>
      declaresDS servers bpos t ∧
        ((a < bpos ∧ declaresDS servers a t) ∨ (a = bpos ∧ ¬ (dsKeys servers bpos).Nodup))

/-- A failing `processBackend` step reports truthfully, given the invariant
for the already-processed backends. -/
theorem processBackend_err_sound (servers : List Backend) (k : Nat)
    (f : SchemaServerFactory) (b : Backend) (e : MuxError)
    (hk : servers.get? k = some b) (h : processBackend k f b = .error e)
    (hinv : BuildInv servers k f) : ErrSound servers e := by
  obtain ⟨hResInv, hDSInv, hProvInv, hMetaInv⟩ := hinv
  rcases processBackend_err_parts k f b e h with
    ⟨cause, hg, rfl⟩ |
    ⟨resp, d, hg, hfind, rfl⟩ |
    ⟨resp, hg, rfl, hrp, hfp⟩ |
    ⟨resp, hg, rfl, hrm, hfm⟩ |
    ⟨resp, t, v, hg, rfl, hmem, hv⟩ |
    ⟨resp, t, v, hg, rfl, hmem, hv⟩
  · exact ⟨b, hk, hg⟩
  · exact ⟨b, resp, d, hk, hg, hfind, rfl, rfl, rfl⟩
  · rcases hProvInv with ⟨_, hcur, _⟩ | ⟨pos, hlt, howner, _, hdecl, _⟩
    · rw [hcur] at hfp; simp at hfp
    · refine ⟨⟨pos, howner, hlt, hdecl⟩, ?_⟩
      unfold declaresProv
      rw [provOf_eq servers k b resp hk hg]
      exact hrp
  · rcases hMetaInv with ⟨_, hcur, _⟩ | ⟨pos, hlt, howner, _, hdecl, _⟩
    · rw [hcur] at hfm; simp at hfm
    · refine ⟨⟨pos, howner, hlt, hdecl⟩, ?_⟩
      unfold declaresMeta
      rw [metaOf_eq servers k b resp hk hg]
      exact hrm
  · have hdeclk : declaresRes servers k t := by
      unfold declaresRes
      rw [resSchemaOf_eq servers k b resp hk hg t]
      rw [assocLookup_isSome_iff]
      exact hmem
    refine ⟨hdeclk, ?_⟩
    rcases hv with hv | ⟨hvk, hnd⟩
    · obtain ⟨hlt, hds, _⟩ := hResInv.1 t v hv
      exact Or.inl ⟨hlt, hds⟩
    · refine Or.inr ⟨hvk, ?_⟩
      rw [resKeys_eq servers k b resp hk hg]
      exact hnd
  · have hdeclk : declaresDS servers k t := by
      unfold declaresDS
      rw [dsSchemaOf_eq servers k b resp hk hg t]
      rw [assocLookup_isSome_iff]
      exact hmem
    refine ⟨hdeclk, ?_⟩
    rcases hv with hv | ⟨hvk, hnd⟩
    · obtain ⟨hlt, hds, _⟩ := hDSInv.1 t v hv
      exact Or.inl ⟨hlt, hds⟩
    · refine Or.inr ⟨hvk, ?_⟩
      rw [dsKeys_eq servers k b resp hk hg]
      exact hnd

theorem drop_cons_get (servers : List Backend) (k : Nat) (b : Backend)
    (rest : List Backend) (h : servers.drop k = b :: rest) :
    servers.get? k = some b ∧ servers.drop (k + 1) = rest := by
  constructor
  · have := List.getElem?_drop servers k 0
    rw [h] at this
    simp only [List.getElem?_cons_zero, Nat.add_zero] at this
    rw [List.get?_eq_getElem?]
    exact this.symm
  · have : (servers.drop k).drop 1 = servers.drop (k + 1) := by
      rw [List.drop_drop]
    rw [← this, h]
    rfl

/-- The build loop's errors truthfully describe the backends. -/
theorem buildFrom_err_sound (servers : List Backend) :
    ∀ (l : List Backend) (k : Nat) (f : SchemaServerFactory) (e : MuxError),
      servers.drop k = l → buildFrom k f l = .error e → BuildInv servers k f →
      ErrSound servers e := by
  intro l
  induction l with
  | nil => intro k f e _ h _; simp [buildFrom] at h
  | cons b rest ih =>
    intro k f e hdrop h hinv
    obtain ⟨hk, hdrop'⟩ := drop_cons_get servers k b rest hdrop
    cases hpb : processBackend k f b with
    | error e' =>
      simp only [buildFrom, hpb, Except.error.injEq] at h
      exact h ▸ processBackend_err_sound servers k f b e' hk hpb hinv
    | ok f1 =>
      simp only [buildFrom, hpb] at h
      exact ih (k + 1) f1 e hdrop' h (BuildInv_step servers k f f1 b hk hpb hinv).1

/-- The build loop's success establishes the invariant for the full backend
list and leaves the server list unchanged. -/
theorem buildFrom_ok_inv (servers : List Backend) :
    ∀ (l : List Backend) (k : Nat) (f f' : SchemaServerFactory),
      servers.drop k = l → buildFrom k f l = .ok f' → BuildInv servers k f →
      ∃ m, servers.length ≤ m ∧ BuildInv servers m f' ∧ f'.servers = f.servers := by
  intro l
  induction l with
  | nil =>
    intro k f f' hdrop h hinv
    simp only [buildFrom, Except.ok.injEq] at h
    refine ⟨k, List.drop_eq_nil_iff.mp hdrop, h ▸ hinv, by rw [← h]⟩
  | cons b rest ih =>
    intro k f f' hdrop h hinv
    obtain ⟨hk, hdrop'⟩ := drop_cons_get servers k b rest hdrop
    cases hpb : processBackend k f b with
    | error e' => simp [buildFrom, hpb] at h
    | ok f1 =>
      simp only [buildFrom, hpb] at h
      obtain ⟨hstep, hsrv⟩ := BuildInv_step servers k f f1 b hk hpb hinv
      obtain ⟨m, hm, hinv', hsrv'⟩ := ih (k + 1) f1 f' hdrop' h hstep
      exact ⟨m, hm, hinv', hsrv'.trans hsrv⟩

/-- The invariant holds of the freshly initialised factory. -/
theorem BuildInv_init (servers : List Backend) : BuildInv servers 0 (initFactory servers) := by
  refine ⟨⟨?_, ?_, rfl⟩, ⟨?_, ?_, rfl⟩, Or.inl ⟨rfl, rfl, ?_⟩, Or.inl ⟨rfl, rfl, ?_⟩⟩
  · intro name pos h; simp [initFactory, assocLookup] at h
  · intro name pos h; omega
  · intro name pos h; simp [initFactory, assocLookup] at h
  · intro name pos h; omega
  · intro q hq; omega
  · intro q hq; omega

/-- A successful `NewSchemaServerFactory` establishes the invariant for all
backends, and keeps the supplied server list. -/
theorem NewSchemaServerFactory_ok_inv (servers : List Backend) (f : SchemaServerFactory)
    (h : NewSchemaServerFactory servers = .ok f) :
    ∃ m, servers.length ≤ m ∧ BuildInv servers m f ∧ f.servers = servers := by
  obtain ⟨m, hm, hinv, hsrv⟩ :=
    buildFrom_ok_inv servers servers 0 (initFactory servers) f rfl h (BuildInv_init servers)
  exact ⟨m, hm, hinv, hsrv⟩

/-- A failing `NewSchemaServerFactory` reports truthfully. -/
theorem NewSchemaServerFactory_err_sound (servers : List Backend) (e : MuxError)
    (h : NewSchemaServerFactory servers = .error e) : ErrSound servers e :=
  buildFrom_err_sound servers servers 0 (initFactory servers) e rfl h (BuildInv_init servers)

/-! ## Clean-run vocabulary and consequences of a successful build -/

/-- Every backend's schema retrieval succeeds. -/
def AllRetrievalOk (servers : List Backend) : Prop :=
  ∀ pos b, servers.get? pos = some b → ∃ resp, b.getProviderSchema = .ok resp

/-- No backend reports an error-severity schema diagnostic. -/
def NoErrorDiags (servers : List Backend) : Prop :=
  ∀ pos b resp, servers.get? pos = some b → b.getProviderSchema = .ok resp →
    (nonNilDiags resp.diagnostics).find? Diagnostic.isErr = none

theorem build_ok_uniqueRes (servers : List Backend) (f : SchemaServerFactory)
    (h : NewSchemaServerFactory servers = .ok f) :
    ∀ t p q, declaresRes servers p t → declaresRes servers q t → p = q := by
  obtain ⟨m, hm, ⟨hRes, _, _, _⟩, _⟩ := NewSchemaServerFactory_ok_inv servers f h
  intro t p q hp hq
  have hp' := hRes.2.1 t p (Nat.lt_of_lt_of_le (declaresRes_lt servers p t hp) hm) hp
  have hq' := hRes.2.1 t q (Nat.lt_of_lt_of_le (declaresRes_lt servers q t hq) hm) hq
  rw [hp'] at hq'
  exact Option.some_inj.mp hq'

theorem build_ok_uniqueDS (servers : List Backend) (f : SchemaServerFactory)
    (h : NewSchemaServerFactory servers = .ok f) :
    ∀ t p q, declaresDS servers p t → declaresDS servers q t → p = q := by
  obtain ⟨m, hm, ⟨_, hDS, _, _⟩, _⟩ := NewSchemaServerFactory_ok_inv servers f h
  intro t p q hp hq
  have hp' := hDS.2.1 t p (Nat.lt_of_lt_of_le (declaresDS_lt servers p t hp) hm) hp
  have hq' := hDS.2.1 t q (Nat.lt_of_lt_of_le (declaresDS_lt servers q t hq) hm) hq
  rw [hp'] at hq'
  exact Option.some_inj.mp hq'

theorem build_ok_uniqueProv (servers : List Backend) (f : SchemaServerFactory)
    (h : NewSchemaServerFactory servers = .ok f) :
    ∀ p q, declaresProv servers p → declaresProv servers q → p = q := by
  obtain ⟨m, hm, ⟨_, _, hProv, _⟩, _⟩ := NewSchemaServerFactory_ok_inv servers f h
  intro p q hp hq
  rcases hProv with ⟨_, _, hnone⟩ | ⟨pos, _, _, _, _, huniq⟩
  · exact absurd hp (by
      rw [declaresProv, hnone p (Nat.lt_of_lt_of_le (declaresProv_lt servers p hp) hm)]
      simp)
  · rw [huniq p (Nat.lt_of_lt_of_le (declaresProv_lt servers p hp) hm) hp,
        huniq q (Nat.lt_of_lt_of_le (declaresProv_lt servers q hq) hm) hq]

theorem build_ok_uniqueMeta (servers : List Backend) (f : SchemaServerFactory)
    (h : NewSchemaServerFactory servers = .ok f) :
    ∀ p q, declaresMeta servers p → declaresMeta servers q → p = q := by
  obtain ⟨m, hm, ⟨_, _, _, hMeta⟩, _⟩ := NewSchemaServerFactory_ok_inv servers f h
  intro p q hp hq
  rcases hMeta with ⟨_, _, hnone⟩ | ⟨pos, _, _, _, _, huniq⟩
  · exact absurd hp (by
      rw [declaresMeta, hnone p (Nat.lt_of_lt_of_le (declaresMeta_lt servers p hp) hm)]
      simp)
  · rw [huniq p (Nat.lt_of_lt_of_le (declaresMeta_lt servers p hp) hm) hp,
        huniq q (Nat.lt_of_lt_of_le (declaresMeta_lt servers q hq) hm) hq]

/-- After a failed build on a list whose schema calls succeed without
error-severity diagnostics, the error is one of the four duplicate
errors. -/
theorem build_fails_classify (servers : List Backend) (e : MuxError)
    (h : NewSchemaServerFactory servers = .error e)
    (hret : AllRetrievalOk servers) (hdiag : NoErrorDiags servers) :
    (∃ t a bp, e = .duplicateResourceType t a bp) ∨
    (∃ t a bp, e = .duplicateDataSourceType t a bp) ∨
    (∃ a bp, e = .duplicateProviderSchema a bp) ∨
    (∃ a bp, e = .duplicateProviderMetaSchema a bp) := by
  have hs := NewSchemaServerFactory_err_sound servers e h
  cases e with
  | schemaRetrievalFailed pos cause =>
    obtain ⟨b, hk, herr⟩ := hs
    obtain ⟨resp, hok⟩ := hret pos b hk
    rw [herr] at hok
    exact absurd hok (by simp)
  | backendSchemaError pos a summ det =>
    obtain ⟨b, resp, d, hk, hg, hfind, _⟩ := hs
    rw [hdiag pos b resp hk hg] at hfind
    exact absurd hfind (by simp)
  | duplicateProviderSchema a bp => exact Or.inr (Or.inr (Or.inl ⟨a, bp, rfl⟩))
  | duplicateProviderMetaSchema a bp => exact Or.inr (Or.inr (Or.inr ⟨a, bp, rfl⟩))
  | duplicateResourceType t a bp => exact Or.inl ⟨t, a, bp, rfl⟩
  | duplicateDataSourceType t a bp => exact Or.inr (Or.inl ⟨t, a, bp, rfl⟩)

/-! ## C5: duplicate type names fail the build; distinct names register -/

/-- C5: two backends declaring the same resource (or data-source) type name
make the build fail — so a successful build implies unique ownership — and
any duplicate-type error truthfully names the type and both of its owners
(given that each response's key set is duplicate-free, as Go maps guarantee).
On a successful build every type name is registered to the single backend
that declared it, with that backend's schema stored; and on a list whose
only anomaly is a duplicated type name, the build fails precisely with a
duplicate-type error naming the type and two distinct owners that both
declare it. -/
theorem c5_duplicate_type_detection (servers : List Backend) :
    (∀ f, NewSchemaServerFactory servers = .ok f →
      (∀ t p q, declaresRes servers p t → declaresRes servers q t → p = q) ∧
      (∀ t p q, declaresDS servers p t → declaresDS servers q t → p = q)) ∧
    (∀ t a bp, (∀ pos, (resKeys servers pos).Nodup) →
      NewSchemaServerFactory servers = .error (.duplicateResourceType t a bp) →
      a < bp ∧ declaresRes servers a t ∧ declaresRes servers bp t) ∧
    (∀ t a bp, (∀ pos, (dsKeys servers pos).Nodup) →
      NewSchemaServerFactory servers = .error (.duplicateDataSourceType t a bp) →
      a < bp ∧ declaresDS servers a t ∧ declaresDS servers bp t) ∧
    (∀ f name pos, NewSchemaServerFactory servers = .ok f →
      (assocLookup name f.resources = some pos ↔ declaresRes servers pos name) ∧
      (assocLookup name f.resources = some pos →
        assocLookup name f.resourceSchemas = resSchemaOf servers pos name) ∧
      (assocLookup name f.dataSources = some pos ↔ declaresDS servers pos name) ∧
      (assocLookup name f.dataSources = some pos →
        assocLookup name f.dataSourceSchemas = dsSchemaOf servers pos name)) ∧
    (AllRetrievalOk servers → NoErrorDiags servers →
      (∀ p q, declaresProv servers p → declaresProv servers q → p = q) →
      (∀ p q, declaresMeta servers p → declaresMeta servers q → p = q) →
      (∀ pos, (resKeys servers pos).Nodup ∧ (dsKeys servers pos).Nodup) →
      (∃ t p q, p ≠ q ∧ ((declaresRes servers p t ∧ declaresRes servers q t) ∨
                         (declaresDS servers p t ∧ declaresDS servers q t))) →
      ∃ t a bp,
        (NewSchemaServerFactory servers = .error (.duplicateResourceType t a bp) ∧
          a < bp ∧ declaresRes servers a t ∧ declaresRes servers bp t) ∨
        (NewSchemaServerFactory servers = .error (.duplicateDataSourceType t a bp) ∧
          a < bp ∧ declaresDS servers a t ∧ declaresDS servers bp t)) := by
  refine ⟨?_, ?_, ?_, ?_, ?_⟩
  · intro f hok
    exact ⟨build_ok_uniqueRes servers f hok, build_ok_uniqueDS servers f hok⟩
  · intro t a bp hnd herr
    have hs := NewSchemaServerFactory_err_sound servers _ herr
    obtain ⟨hdeclb, hcase⟩ := hs
    rcases hcase with ⟨hlt, hdecla⟩ | ⟨_, hnodup⟩
    · exact ⟨hlt, hdecla, hdeclb⟩
    · exact absurd (hnd bp) hnodup
  · intro t a bp hnd herr
    have hs := NewSchemaServerFactory_err_sound servers _ herr
    obtain ⟨hdeclb, hcase⟩ := hs
    rcases hcase with ⟨hlt, hdecla⟩ | ⟨_, hnodup⟩
    · exact ⟨hlt, hdecla, hdeclb⟩
    · exact absurd (hnd bp) hnodup
  · intro f name pos hok
    obtain ⟨m, hm, ⟨hRes, hDS, _, _⟩, _⟩ := NewSchemaServerFactory_ok_inv servers f hok
    refine ⟨⟨?_, ?_⟩, ?_, ⟨?_, ?_⟩, ?_⟩
    · intro hl; exact (hRes.1 name pos hl).2.1
    · intro hd
      exact hRes.2.1 name pos (Nat.lt_of_lt_of_le (declaresRes_lt servers pos name hd) hm) hd
    · intro hl; exact (hRes.1 name pos hl).2.2
    · intro hl; exact (hDS.1 name pos hl).2.1
    · intro hd
      exact hDS.2.1 name pos (Nat.lt_of_lt_of_le (declaresDS_lt servers pos name hd) hm) hd
    · intro hl; exact (hDS.1 name pos hl).2.2
  · intro hret hdiag huprov humeta hnodup ⟨t, p, q, hpq, hdup⟩
    cases hb : NewSchemaServerFactory servers with
    | ok f =>
      exfalso
      rcases hdup with ⟨hp, hq⟩ | ⟨hp, hq⟩
      · exact hpq (build_ok_uniqueRes servers f hb t p q hp hq)
      · exact hpq (build_ok_uniqueDS servers f hb t p q hp hq)
    | error e =>
      rcases build_fails_classify servers e hb hret hdiag with
        ⟨t', a, bp, rfl⟩ | ⟨t', a, bp, rfl⟩ | ⟨a, bp, rfl⟩ | ⟨a, bp, rfl⟩
      · obtain ⟨hdeclb, hcase⟩ := NewSchemaServerFactory_err_sound servers _ hb
        rcases hcase with ⟨hlt, hdecla⟩ | ⟨_, hnd⟩
        · exact ⟨t', a, bp, Or.inl ⟨rfl, hlt, hdecla, hdeclb⟩⟩
        · exact absurd (hnodup bp).1 hnd
      · obtain ⟨hdeclb, hcase⟩ := NewSchemaServerFactory_err_sound servers _ hb
        rcases hcase with ⟨hlt, hdecla⟩ | ⟨_, hnd⟩
        · exact ⟨t', a, bp, Or.inr ⟨rfl, hlt, hdecla, hdeclb⟩⟩
        · exact absurd (hnodup bp).2 hnd
      · obtain ⟨⟨pa, _, hplt, hpd⟩, hbd⟩ := NewSchemaServerFactory_err_sound servers _ hb
        exact absurd (huprov pa bp hpd hbd) (Nat.ne_of_lt hplt)
      · obtain ⟨⟨pa, _, hplt, hpd⟩, hbd⟩ := NewSchemaServerFactory_err_sound servers _ hb
        exact absurd (humeta pa bp hpd hbd) (Nat.ne_of_lt hplt)

/-- A backend declaring resource type `"r1"` (schema id 5). -/
def resDupBackendA : Backend :=
  { defaultBackend with
    getProviderSchema :=
      .ok { emptySchemaResponse with resourceSchemas := [("r1", some { id := 5 })] } }

/-- Another backend declaring the same resource type `"r1"` (schema id 6). -/
def resDupBackendB : Backend :=
  { defaultBackend with
    getProviderSchema :=
      .ok { emptySchemaResponse with resourceSchemas := [("r1", some { id := 6 })] } }

/-- Witness for C5: the build over the two `"r1"`-declaring backends fails
with the duplicate-resource-type error naming `"r1"` and owners 0 and 1,
which the theorem shows are distinct true declarers. -/
theorem c5_duplicate_type_detection_witness :
    0 < 1 ∧ declaresRes [resDupBackendA, resDupBackendB] 0 "r1" ∧
      declaresRes [resDupBackendA, resDupBackendB] 1 "r1" := by
  refine (c5_duplicate_type_detection [resDupBackendA, resDupBackendB]).2.1 "r1" 0 1 ?_ rfl
  intro pos
  match pos with
  | 0 => decide
  | 1 => decide
  | (n + 2) => simp [resKeys]

theorem build_ok_prov_owner (servers : List Backend) (f : SchemaServerFactory)
    (hok : NewSchemaServerFactory servers = .ok f) (pos : Nat)
    (hd : declaresProv servers pos) :
    f.providerSchemaFrom = (pos : Int) ∧ f.providerSchema = provOf servers pos := by
  obtain ⟨m, hm, ⟨_, _, hProv, _⟩, _⟩ := NewSchemaServerFactory_ok_inv servers f hok
  rcases hProv with ⟨_, _, hnone⟩ | ⟨pos0, hlt, hfrom, hcur, hd0, huniq⟩
  · exact absurd hd (by
      rw [declaresProv, hnone pos (Nat.lt_of_lt_of_le (declaresProv_lt servers pos hd) hm)]
      simp)
  · have hpe : pos = pos0 :=
      huniq pos (Nat.lt_of_lt_of_le (declaresProv_lt servers pos hd) hm) hd
    rw [← hpe] at hfrom hcur
    exact ⟨hfrom, hcur⟩

theorem build_ok_meta_owner (servers : List Backend) (f : SchemaServerFactory)
    (hok : NewSchemaServerFactory servers = .ok f) (pos : Nat)
    (hd : declaresMeta servers pos) :
    f.providerMetaSchemaFrom = (pos : Int) ∧ f.providerMetaSchema = metaOf servers pos := by
  obtain ⟨m, hm, ⟨_, _, _, hMeta⟩, _⟩ := NewSchemaServerFactory_ok_inv servers f hok
  rcases hMeta with ⟨_, _, hnone⟩ | ⟨pos0, hlt, hfrom, hcur, hd0, huniq⟩
  · exact absurd hd (by
      rw [declaresMeta, hnone pos (Nat.lt_of_lt_of_le (declaresMeta_lt servers pos hd) hm)]
      simp)
  · have hpe : pos = pos0 :=
      huniq pos (Nat.lt_of_lt_of_le (declaresMeta_lt servers pos hd) hm) hd
    rw [← hpe] at hfrom hcur
    exact ⟨hfrom, hcur⟩

theorem build_ok_prov_unset (servers : List Backend) (f : SchemaServerFactory)
    (hok : NewSchemaServerFactory servers = .ok f)
    (hn : ∀ q, ¬ declaresProv servers q) :
    f.providerSchemaFrom = -1 ∧ f.providerSchema = none := by
  obtain ⟨m, _, ⟨_, _, hProv, _⟩, _⟩ := NewSchemaServerFactory_ok_inv servers f hok
  rcases hProv with ⟨h1, h2, _⟩ | ⟨pos0, _, _, _, hd0, _⟩
  · exact ⟨h1, h2⟩
  · exact absurd hd0 (hn pos0)

/-! ## C6: single-owner provider and provider-meta schemas -/

/-- C6: two distinct backends declaring a non-empty provider schema (or
provider-meta schema) make the build fail — a successful build implies a
unique declarer of each — and any duplicate-schema error truthfully names
the first owner and the later (second) declarer it aborted at.  On a
successful build the unique declarer is recorded as the owner and its schema
is kept in the merged schema response.  On a list whose only anomaly is the
doubly-declared provider schema (or provider-meta schema), with exactly the
declarers `p < q`, the build aborts with the duplicate-schema error naming
`p` as first owner at the second declaration `q`. -/
theorem c6_single_owner_schemas (servers : List Backend) :
    (∀ f, NewSchemaServerFactory servers = .ok f →
      (∀ p q, declaresProv servers p → declaresProv servers q → p = q) ∧
      (∀ p q, declaresMeta servers p → declaresMeta servers q → p = q)) ∧
    (∀ a bp, NewSchemaServerFactory servers = .error (.duplicateProviderSchema a bp) →
      ∃ pa : Nat, a = (pa : Int) ∧ pa < bp ∧ declaresProv servers pa ∧
        declaresProv servers bp) ∧
    (∀ a bp, NewSchemaServerFactory servers = .error (.duplicateProviderMetaSchema a bp) →
      ∃ pa : Nat, a = (pa : Int) ∧ pa < bp ∧ declaresMeta servers pa ∧
        declaresMeta servers bp) ∧
    (∀ f pos, NewSchemaServerFactory servers = .ok f → declaresProv servers pos →
      f.providerSchemaFrom = (pos : Int) ∧
      ∃ r, f.getSchemaHandler = (some r, none) ∧ r.provider = provOf servers pos) ∧
    (∀ f pos, NewSchemaServerFactory servers = .ok f → declaresMeta servers pos →
      f.providerMetaSchemaFrom = (pos : Int) ∧
      ∃ r, f.getSchemaHandler = (some r, none) ∧ r.providerMeta = metaOf servers pos) ∧
    (AllRetrievalOk servers → NoErrorDiags servers →
      (∀ t p q, declaresRes servers p t → declaresRes servers q t → p = q) →
      (∀ t p q, declaresDS servers p t → declaresDS servers q t → p = q) →
      (∀ pos, (resKeys servers pos).Nodup ∧ (dsKeys servers pos).Nodup) →
      ∀ p q, p < q → declaresProv servers p → declaresProv servers q →
      (∀ r, declaresProv servers r → r = p ∨ r = q) →
      (∀ r s, declaresMeta servers r → declaresMeta servers s → r = s) →
      NewSchemaServerFactory servers = .error (.duplicateProviderSchema (p : Int) q)) ∧
    (AllRetrievalOk servers → NoErrorDiags servers →
      (∀ t p q, declaresRes servers p t → declaresRes servers q t → p = q) →
      (∀ t p q, declaresDS servers p t → declaresDS servers q t → p = q) →
      (∀ pos, (resKeys servers pos).Nodup ∧ (dsKeys servers pos).Nodup) →
      ∀ p q, p < q → declaresMeta servers p → declaresMeta servers q →
      (∀ r, declaresMeta servers r → r = p ∨ r = q) →
      (∀ r s, declaresProv servers r → declaresProv servers s → r = s) →
      NewSchemaServerFactory servers = .error (.duplicateProviderMetaSchema (p : Int) q)) := by
  refine ⟨?_, ?_, ?_, ?_, ?_, ?_, ?_⟩
  · intro f hok
    exact ⟨build_ok_uniqueProv servers f hok, build_ok_uniqueMeta servers f hok⟩
  · intro a bp herr
    obtain ⟨⟨pa, haeq, hplt, hpd⟩, hbd⟩ := NewSchemaServerFactory_err_sound servers _ herr
    exact ⟨pa, haeq, hplt, hpd, hbd⟩
  · intro a bp herr
    obtain ⟨⟨pa, haeq, hplt, hpd⟩, hbd⟩ := NewSchemaServerFactory_err_sound servers _ herr
    exact ⟨pa, haeq, hplt, hpd, hbd⟩
  · intro f pos hok hd
    obtain ⟨hfrom, hcur⟩ := build_ok_prov_owner servers f hok pos hd
    exact ⟨hfrom, _, rfl, hcur⟩
  · intro f pos hok hd
    obtain ⟨hfrom, hcur⟩ := build_ok_meta_owner servers f hok pos hd
    exact ⟨hfrom, _, rfl, hcur⟩
  · intro hret hdiag hures hudsr hnodup p q hpq hdp hdq honly humeta
    cases hb : NewSchemaServerFactory servers with
    | ok f =>
      exact absurd (build_ok_uniqueProv servers f hb p q hdp hdq) (Nat.ne_of_lt hpq)
    | error e =>
      rcases build_fails_classify servers e hb hret hdiag with
        ⟨t', a, bp, rfl⟩ | ⟨t', a, bp, rfl⟩ | ⟨a, bp, rfl⟩ | ⟨a, bp, rfl⟩
      · obtain ⟨hdeclb, hcase⟩ := NewSchemaServerFactory_err_sound servers _ hb
        rcases hcase with ⟨hlt, hdecla⟩ | ⟨_, hnd⟩
        · exact absurd (hures t' a bp hdecla hdeclb) (Nat.ne_of_lt hlt)
        · exact absurd (hnodup bp).1 hnd
      · obtain ⟨hdeclb, hcase⟩ := NewSchemaServerFactory_err_sound servers _ hb
        rcases hcase with ⟨hlt, hdecla⟩ | ⟨_, hnd⟩
        · exact absurd (hudsr t' a bp hdecla hdeclb) (Nat.ne_of_lt hlt)
        · exact absurd (hnodup bp).2 hnd
      · obtain ⟨⟨pa, haeq, hplt, hpd⟩, hbd⟩ := NewSchemaServerFactory_err_sound servers _ hb
        have hpa : pa = p := by
          rcases honly pa hpd with rfl | rfl
          · rfl
          · rcases honly bp hbd with rfl | rfl
            · omega
            · omega
        have hbp : bp = q := by
          rcases honly bp hbd with rfl | rfl
          · omega
          · rfl
        rw [haeq, hpa, hbp]
      · obtain ⟨⟨pa, haeq, hplt, hpd⟩, hbd⟩ := NewSchemaServerFactory_err_sound servers _ hb
        exact absurd (humeta pa bp hpd hbd) (Nat.ne_of_lt hplt)
  · intro hret hdiag hures hudsr hnodup p q hpq hdp hdq honly huprov
    cases hb : NewSchemaServerFactory servers with
    | ok f =>
      exact absurd (build_ok_uniqueMeta servers f hb p q hdp hdq) (Nat.ne_of_lt hpq)
    | error e =>
      rcases build_fails_classify servers e hb hret hdiag with
        ⟨t', a, bp, rfl⟩ | ⟨t', a, bp, rfl⟩ | ⟨a, bp, rfl⟩ | ⟨a, bp, rfl⟩
      · obtain ⟨hdeclb, hcase⟩ := NewSchemaServerFactory_err_sound servers _ hb
        rcases hcase with ⟨hlt, hdecla⟩ | ⟨_, hnd⟩
        · exact absurd (hures t' a bp hdecla hdeclb) (Nat.ne_of_lt hlt)
        · exact absurd (hnodup bp).1 hnd
      · obtain ⟨hdeclb, hcase⟩ := NewSchemaServerFactory_err_sound servers _ hb
        rcases hcase with ⟨hlt, hdecla⟩ | ⟨_, hnd⟩
        · exact absurd (hudsr t' a bp hdecla hdeclb) (Nat.ne_of_lt hlt)
        · exact absurd (hnodup bp).2 hnd
      · obtain ⟨⟨pa, haeq, hplt, hpd⟩, hbd⟩ := NewSchemaServerFactory_err_sound servers _ hb
        exact absurd (huprov pa bp hpd hbd) (Nat.ne_of_lt hplt)
      · obtain ⟨⟨pa, haeq, hplt, hpd⟩, hbd⟩ := NewSchemaServerFactory_err_sound servers _ hb
        have hpa : pa = p := by
          rcases honly pa hpd with rfl | rfl
          · rfl
          · rcases honly bp hbd with rfl | rfl
            · omega
            · omega
        have hbp : bp = q := by
          rcases honly bp hbd with rfl | rfl
          · omega
          · rfl
        rw [haeq, hpa, hbp]

/-- A backend declaring a provider schema (id 1). -/
def provBackendA : Backend :=
  { defaultBackend with
    getProviderSchema := .ok { emptySchemaResponse with provider := some { id := 1 } } }

/-- Another backend declaring a provider schema (id 2). -/
def provBackendB : Backend :=
  { defaultBackend with
    getProviderSchema := .ok { emptySchemaResponse with provider := some { id := 2 } } }

/-- The two-backend list on which both declare a provider schema. -/
def provPair : List Backend := [provBackendA, provBackendB]

/-- Witness for C6: the build over the two provider-declaring backends
aborts with the duplicate-provider-schema error naming backend 0 as first
owner at the second declaration, backend 1. -/
theorem c6_single_owner_schemas_witness :
    NewSchemaServerFactory provPair =
      .error (.duplicateProviderSchema ((0 : Nat) : Int) 1) := by
  have hlen : provPair.length = 2 := rfl
  have hnores : ∀ pos t, ¬ declaresRes provPair pos t := by
    intro pos t h
    have hlt := declaresRes_lt provPair pos t h
    rw [hlen] at hlt
    rcases (by omega : pos = 0 ∨ pos = 1) with rfl | rfl
    · rw [declaresRes, show resSchemaOf provPair 0 t = none from rfl] at h
      simp at h
    · rw [declaresRes, show resSchemaOf provPair 1 t = none from rfl] at h
      simp at h
  have hnods : ∀ pos t, ¬ declaresDS provPair pos t := by
    intro pos t h
    have hlt := declaresDS_lt provPair pos t h
    rw [hlen] at hlt
    rcases (by omega : pos = 0 ∨ pos = 1) with rfl | rfl
    · rw [declaresDS, show dsSchemaOf provPair 0 t = none from rfl] at h
      simp at h
    · rw [declaresDS, show dsSchemaOf provPair 1 t = none from rfl] at h
      simp at h
  have hnometa : ∀ pos, ¬ declaresMeta provPair pos := by
    intro pos h
    have hlt := declaresMeta_lt provPair pos h
    rw [hlen] at hlt
    rcases (by omega : pos = 0 ∨ pos = 1) with rfl | rfl
    · rw [declaresMeta, show metaOf provPair 0 = none from rfl] at h
      simp at h
    · rw [declaresMeta, show metaOf provPair 1 = none from rfl] at h
      simp at h
  refine (c6_single_owner_schemas provPair).2.2.2.2.2.1 ?_ ?_ ?_ ?_ ?_ 0 1 (by decide)
    rfl rfl ?_ ?_
  · intro pos b h
    match pos, h with
    | 0, h => exact ⟨_, by rw [← Option.some_inj.mp h]; rfl⟩
    | 1, h => exact ⟨_, by rw [← Option.some_inj.mp h]; rfl⟩
    | (n + 2), h => exact absurd h (by simp [provPair])
  · intro pos b resp h hg
    match pos, h with
    | 0, h =>
      rw [← Option.some_inj.mp h] at hg
      rw [← Except.ok.inj hg]
      rfl
    | 1, h =>
      rw [← Option.some_inj.mp h] at hg
      rw [← Except.ok.inj hg]
      rfl
    | (n + 2), h => exact absurd h (by simp [provPair])
  · intro t p q hp _
    exact absurd hp (hnores p t)
  · intro t p q hp _
    exact absurd hp (hnods p t)
  · intro pos
    constructor
    · match pos with
      | 0 => decide
      | 1 => decide
      | (n + 2) => simp [resKeys, provPair]
    · match pos with
      | 0 => decide
      | 1 => decide
      | (n + 2) => simp [dsKeys, provPair]
  · intro r hr
    have hlt := declaresProv_lt provPair r hr
    rw [hlen] at hlt
    omega
  · intro r s hr _
    exact absurd hr (hnometa r)

/-! ## C7: config preparation goes to the designated provider-schema owner -/

/-- C7: on a router built from a successful build, `PrepareProviderConfig`
fails with the no-owner error and invokes no backend when no backend
declared a provider schema during the build; otherwise it forwards the
request unchanged to the backend that declared one and returns its response
and error unchanged (invoking exactly that backend). -/
theorem c7_prepare_config_owner (servers : List Backend) (f : SchemaServerFactory)
    (req : PrepareProviderConfigRequest)
    (hok : NewSchemaServerFactory servers = .ok f) :
    ((∀ q, ¬ declaresProv servers q) →
      (f.Server).PrepareProviderConfig req = ((none, some .noProviderSchemaOwner), [])) ∧
    (∀ pos b, servers.get? pos = some b → declaresProv servers pos →
      (f.Server).PrepareProviderConfig req = (b.prepareProviderConfig req, [pos])) := by
  obtain ⟨m, hm, _, hsrv⟩ := NewSchemaServerFactory_ok_inv servers f hok
  have hserv : (f.Server).servers = servers := hsrv
  constructor
  · intro hn
    obtain ⟨hfrom, _⟩ := build_ok_prov_unset servers f hok hn
    have hfrom' : (f.Server).prepareProviderConfigServer = -1 := hfrom
    unfold SchemaServer.PrepareProviderConfig
    rw [dif_pos (Or.inl (by rw [hfrom']; decide))]
  · intro pos b hk hd
    obtain ⟨hfrom, _⟩ := build_ok_prov_owner servers f hok pos hd
    have hfrom' : (f.Server).prepareProviderConfigServer = (pos : Int) := hfrom
    obtain ⟨hplt, _⟩ := List.get?_eq_some.mp hk
    have hidx : (f.Server).prepareProviderConfigServer.toNat = pos := by
      rw [hfrom']
      exact Int.toNat_natCast pos
    have hcond : ¬ ((f.Server).prepareProviderConfigServer < 0 ∨
        ((f.Server).servers.length : Int) ≤ (f.Server).prepareProviderConfigServer) := by
      rw [hfrom', hserv]
      push_neg
      constructor
      · exact Int.natCast_nonneg pos
      · exact_mod_cast hplt
    have hget : ∀ hp : (f.Server).prepareProviderConfigServer.toNat < (f.Server).servers.length,
        (f.Server).servers.get ⟨(f.Server).prepareProviderConfigServer.toNat, hp⟩ = b := by
      intro hp
      have h2 : (f.Server).servers.get? (f.Server).prepareProviderConfigServer.toNat = some b := by
        rw [hserv, hidx]
        exact hk
      obtain ⟨hh, hg⟩ := List.get?_eq_some.mp h2
      exact hg
    unfold SchemaServer.PrepareProviderConfig
    rw [dif_neg hcond]
    have h1 := hget (by rw [hserv, hidx]; exact hplt)
    refine Prod.ext (congrArg (fun x => x.prepareProviderConfig req) h1) ?_
    show [(f.Server).prepareProviderConfigServer.toNat] = [pos]
    rw [hidx]

/-- Witness for C7: built from the single provider-declaring backend, config
preparation is forwarded to it; built from a backend declaring no provider
schema, config preparation fails with the no-owner error and an empty
invocation trace. -/
theorem c7_prepare_config_owner_witness :
    (NewSchemaServerFactory [provBackendA]).map
        (fun f => (f.Server).PrepareProviderConfig { payload := 5 }) =
      .ok (provBackendA.prepareProviderConfig { payload := 5 }, [0]) ∧
    (NewSchemaServerFactory [defaultBackend]).map
        (fun f => (f.Server).PrepareProviderConfig { payload := 5 }) =
      .ok ((none, some .noProviderSchemaOwner), []) := by
  constructor
  · obtain ⟨f, hf⟩ : ∃ f, NewSchemaServerFactory [provBackendA] = .ok f := ⟨_, rfl⟩
    rw [hf, Except.map,
      (c7_prepare_config_owner [provBackendA] f { payload := 5 } hf).2 0 provBackendA rfl rfl]
  · obtain ⟨f, hf⟩ : ∃ f, NewSchemaServerFactory [defaultBackend] = .ok f := ⟨_, rfl⟩
    rw [hf, Except.map,
      (c7_prepare_config_owner [defaultBackend] f { payload := 5 } hf).1 ?_]
    intro q hq
    have hlt := declaresProv_lt [defaultBackend] q hq
    have hq0 : q = 0 := by simpa using hlt
    subst hq0
    rw [declaresProv, show provOf [defaultBackend] 0 = none from rfl] at hq
    simp at hq
